import Mathlib

set_option maxHeartbeats 2000000

/-!
Verification development for the robot_viewer telemetry backend.

The definitions below are shallow embeddings of the Python source:

* the calendar arithmetic mirrors CPython datetime (ymd-to-ordinal and its
  inverse), since the source relies on datetime.strptime / timestamp();
* parse_timestamp, iter_lines_with_limits, extract_log_window and
  fetch_all_order_logs model app/infrastructure/filesystem/log_window_extractor.py,
  while mainScan / fetch_all_order_logs_main model the inline duplicates in
  app/main.py (the ones actually invoked by fetch_order_data); file contents are
  lists of lines, a read/decode failure is a FileContent.err carrying the
  exception text, and a log entry carries the pre-base64 text (b64encode is an
  injective transport step and is not modelled);
* find_suitable_dir / find_suitable_files model
  app/infrastructure/filesystem/file_finder.py for one subdirectory: filenames
  are sorted descending by code points (Python sorted(reverse=True) on paths of
  one directory), matched against the rotated-name pattern
  date_suffix.txt (optionally .gz), and the first hit per suffix with date at
  most the target date wins; an invalid calendar date in a matching name is the
  uncaught strptime ValueError of the source;
* jsonLoads is a mini JSON parser for the payload subset appearing in the
  order-events and sauce-weight logs (flat-ish objects, arrays, strings without
  escapes, decimal numbers without exponents); Python floats are modelled as
  exact rationals;
* fetch_order models app/strategies/order_strategy.py (exceptions as PyErr:
  ValueError from unpacking/strptime/int/replace, AttributeError from .get on a
  non-dict, KeyError from absent "uid", pydantic ValidationError from
  Order(**order_data) with missing fields), and fetch_points models
  app/strategies/sauce_weight_strategy.py;
* composeMotors models the motors-dictionary construction in
  fetch_order_data of app/main.py.
-/
def isLeap (y : Nat) : Bool := (y % 4 == 0 && y % 100 != 0) || y % 400 == 0

def daysInMonthNL (m : Nat) : Nat :=
  match m with
  | 1 => 31 | 2 => 28 | 3 => 31 | 4 => 30 | 5 => 31 | 6 => 30
  | 7 => 31 | 8 => 31 | 9 => 30 | 10 => 31 | 11 => 30 | 12 => 31 | _ => 0

def daysBeforeMonth (m : Nat) : Nat :=
  match m with
  | 1 => 0 | 2 => 31 | 3 => 59 | 4 => 90 | 5 => 120 | 6 => 151 | 7 => 181
  | 8 => 212 | 9 => 243 | 10 => 273 | 11 => 304 | 12 => 334 | _ => 0

def daysInMonth (y m : Nat) : Nat :=
  if m = 2 ∧ isLeap y then 29 else daysInMonthNL m

def daysBeforeYear (y : Nat) : Nat := 365*(y-1) + (y-1)/4 - (y-1)/100 + (y-1)/400

def dayOfYear0 (leap : Bool) (m d : Nat) : Nat :=
  daysBeforeMonth m + (if 2 < m ∧ leap then 1 else 0) + d - 1

def toOrdinal (y m d : Nat) : Nat :=
  daysBeforeYear y + dayOfYear0 (isLeap y) m d + 1

def recoverMD (leap : Bool) (n : Nat) : Nat × Nat :=
  let month := (n + 50) / 32
  let preceding := daysBeforeMonth month + (if 2 < month ∧ leap then 1 else 0)
  if n < preceding then
    (month - 1, n - (preceding - (daysInMonthNL (month - 1) + (if month - 1 = 2 ∧ leap then 1 else 0))) + 1)
  else
    (month, n - preceding + 1)

def fromOrdinal (nn : Nat) : Nat × Nat × Nat :=
  let n0 := nn - 1
  let n400 := n0 / 146097
  let r0 := n0 % 146097
  let n100 := r0 / 36524
  let r1 := r0 % 36524
  let n4 := r1 / 1461
  let r2 := r1 % 1461
  let n1 := r2 / 365
  let n := r2 % 365
  let year := n400 * 400 + n100 * 100 + n4 * 4 + n1 + 1
  if n1 = 4 ∨ n100 = 4 then (year - 1, 12, 31)
  else
    (year, (recoverMD (n1 == 3 && (n4 != 24 || n100 == 3)) n).1,
           (recoverMD (n1 == 3 && (n4 != 24 || n100 == 3)) n).2)

def dIM (leap : Bool) (m : Nat) : Nat :=
  if m = 2 ∧ leap then 29 else daysInMonthNL m

/-! Token parsing and formatting -/

def isDigitC (c : Char) : Bool := 48 ≤ c.toNat && c.toNat ≤ 57

def digitVal (c : Char) : Nat := c.toNat - 48

def digitChar (n : Nat) : Char := Char.ofNat (48 + n)

def val2 (a b : Char) : Nat := digitVal a * 10 + digitVal b

def val4 (a b c d : Char) : Nat :=
  digitVal a * 1000 + digitVal b * 100 + digitVal c * 10 + digitVal d

structure TsParts where
  y : Nat
  mo : Nat
  d : Nat
  h : Nat
  mi : Nat
  s : Nat
  tok : List Char
deriving DecidableEq

/-- Leading-pattern match of TS_PATTERN for one log line, returning the parsed
fields and the 19 captured token characters.  Digits are ASCII digits (the
Unicode-digit lines Python's regex would additionally accept are outside the
model). -/
def tsShape : List Char → Option TsParts
  | y1 :: y2 :: y3 :: y4 :: '-' :: m1 :: m2 :: '-' :: d1 :: d2 :: ' ' ::
      h1 :: h2 :: ':' :: i1 :: i2 :: ':' :: s1 :: s2 :: _ =>
    if isDigitC y1 && isDigitC y2 && isDigitC y3 && isDigitC y4 &&
       isDigitC m1 && isDigitC m2 && isDigitC d1 && isDigitC d2 &&
       isDigitC h1 && isDigitC h2 && isDigitC i1 && isDigitC i2 &&
       isDigitC s1 && isDigitC s2 then
      some ⟨val4 y1 y2 y3 y4, val2 m1 m2, val2 d1 d2, val2 h1 h2, val2 i1 i2, val2 s1 s2,
            [y1, y2, y3, y4, '-', m1, m2, '-', d1, d2, ' ', h1, h2, ':', i1, i2, ':', s1, s2]⟩
    else none
  | _ => none

def tsMatch (line : List Char) : Option TsParts :=
  match line with
  | '[' :: rest => tsShape rest
  | _ => tsShape line

def strptimeOk (p : TsParts) : Bool :=
  1 ≤ p.y && 1 ≤ p.mo && p.mo ≤ 12 && 1 ≤ p.d && p.d ≤ daysInMonth p.y p.mo &&
    p.h ≤ 23 && p.mi ≤ 59 && p.s ≤ 59

def epochOfParts (p : TsParts) : Int :=
  ((toOrdinal p.y p.mo p.d : Int) - 719163) * 86400 + p.h * 3600 + p.mi * 60 + p.s

def parse_timestamp (line : String) (offset_h : ℚ) : Option ℚ :=
  match tsMatch line.data with
  | none => none
  | some p => if strptimeOk p then some ((epochOfParts p : ℚ) - offset_h * 3600) else none

def pad2 (n : Nat) : List Char := [digitChar (n / 10), digitChar (n % 10)]

def pad4 (n : Nat) : List Char :=
  [digitChar (n / 1000), digitChar (n / 100 % 10), digitChar (n / 10 % 10), digitChar (n % 10)]

def formatEpoch (t : Int) : String :=
  let secs := (t % 86400).toNat
  let ymd := fromOrdinal (t / 86400 + 719163).toNat
  ⟨pad4 ymd.1 ++ '-' :: pad2 ymd.2.1 ++ '-' :: pad2 ymd.2.2 ++ ' ' ::
    pad2 (secs / 3600) ++ ':' :: pad2 (secs / 60 % 60) ++ ':' :: pad2 (secs % 60)⟩

/-! Bounded line reader and log window extractor -/

def MAX_BYTES_PER_FILE : Nat := 10 * 1024 * 1024

def MAX_LINES_PER_FILE : Nat := 200000

def strStartsWith (s pre : String) : Bool :=
  go s.data pre.data
where
  go : List Char → List Char → Bool
    | _, [] => true
    | [], _ :: _ => false
    | a :: as, b :: bs => a == b && go as bs

def iterGo : List String → Nat → Nat → List String
  | [], _, _ => []
  | l :: rest, lineCount, totalBytes =>
    if lineCount + 1 > MAX_LINES_PER_FILE then []
    else if totalBytes + l.length > MAX_BYTES_PER_FILE then []
    else l :: iterGo rest (lineCount + 1) (totalBytes + l.length)

def iter_lines_with_limits (lines : List String) : List String := iterGo lines 0 0

def bytesOf (ls : List String) : Nat := (ls.map String.length).sum

def extractScan (ws we offH : ℚ) : List String → Option ℚ → Bool → List String × Nat × Bool
  | [], _, found => ([], 0, found)
  | l :: rest, lastTs, found =>
    match parse_timestamp l offH with
    | some ts =>
      if ts < ws then
        match extractScan ws we offH rest (some ts) true with
        | (r, k, f) => (r, k + 1, f)
      else if ts > we then ([], 1, true)
      else
        match extractScan ws we offH rest (some ts) true with
        | (r, k, f) => (l :: r, k + 1, f)
    | none =>
      match lastTs with
      | some t =>
        if ws ≤ t ∧ t ≤ we then
          match extractScan ws we offH rest (some t) found with
          | (r, k, f) => (l :: r, k + 1, f)
        else
          match extractScan ws we offH rest (some t) found with
          | (r, k, f) => (r, k + 1, f)
      | none =>
        match extractScan ws we offH rest none found with
        | (r, k, f) => (r, k + 1, f)

structure LogEntry where
  path : String
  text : String
deriving DecidableEq

def PLACEHOLDER : String :=
  "=== No time window found in this file ===\nTo open full file, double-click the tab.\n"

def offsetFor (relPath : String) : ℚ :=
  if strStartsWith relPath "subapps/" || strStartsWith relPath "console/" then -8 else 0

def extract_log_window (ws we : ℚ) (relPath filePath : String)
    (lines : List String) : LogEntry :=
  let out := extractScan ws we (offsetFor relPath) (iter_lines_with_limits lines) none false
  let text := if out.2.2 && !out.1.isEmpty then String.join out.1 else PLACEHOLDER
  ⟨filePath, text⟩

inductive FileContent where
  | ok (lines : List String)
  | err (msg : String)
deriving DecidableEq

structure FileIn where
  rel : String
  path : String
  content : FileContent
deriving DecidableEq

def fetch_all_order_logs (orderId endOrderTs : ℚ) (files : List FileIn) :
    List (String × LogEntry) :=
  files.map fun f =>
    (f.rel,
      match f.content with
      | .ok lines =>
        extract_log_window (orderId - 5) (endOrderTs + 5) f.rel f.path lines
      | .err e => ⟨f.path, "=== Failed to extract log window: " ++ e ++ " ==="⟩)

def mainScan (ws we offH : ℚ) : List String → Option ℚ → Bool → List String × Nat × Bool
  | [], _, found => ([], 0, found)
  | l :: rest, lastTs, found =>
    let ts := parse_timestamp l offH
    let found2 := found || ts.isSome
    let last2 := match ts with
      | some t => some t
      | none => lastTs
    match last2 with
    | some t =>
      if ws ≤ t ∧ t ≤ we then
        match mainScan ws we offH rest (some t) found2 with
        | (r, k, f) => (l :: r, k + 1, f)
      else if t > we then ([], 1, found2)
      else
        match mainScan ws we offH rest (some t) found2 with
        | (r, k, f) => (r, k + 1, f)
    | none =>
      match mainScan ws we offH rest none found2 with
      | (r, k, f) => (r, k + 1, f)

def main_extract_entry (ws we : ℚ) (relPath filePath : String)
    (lines : List String) : LogEntry :=
  let out := mainScan ws we (offsetFor relPath) lines none false
  let text := if out.2.2 && !out.1.isEmpty then String.join out.1 else PLACEHOLDER
  ⟨filePath, text⟩

def fetch_all_order_logs_main (orderId endOrderTs : ℚ) (files : List FileIn) :
    List (String × LogEntry) :=
  files.filterMap fun f =>
    match f.content with
    | .ok lines =>
      some (f.rel, main_extract_entry (orderId - 5) (endOrderTs + 5) f.rel f.path lines)
    | .err _ => none

/-! C4 lemmas -/

/-! File discovery: Python string ordering and descending sort -/

def charsLe : List Char → List Char → Bool
  | [], _ => true
  | _ :: _, [] => false
  | a :: as, b :: bs =>
    if a.toNat < b.toNat then true
    else if b.toNat < a.toNat then false
    else charsLe as bs

def strLe (a b : String) : Bool := charsLe a.data b.data

def insertDesc (x : String) : List String → List String
  | [] => [x]
  | y :: ys => if strLe y x then x :: y :: ys else y :: insertDesc x ys

def sortDesc (ls : List String) : List String := ls.foldr insertDesc []

/-! Rotated log filename parsing (regex (\d{4}-\d{2}-\d{2})_(.+)\.txt(\.gz)?$) -/

structure RotParts where
  y : Nat
  mo : Nat
  dd : Nat
  sfx : List Char
  gz : Bool
deriving DecidableEq

def extTxt : List Char := ".txt".data

def extTxtGz : List Char := ".txt.gz".data

def sfxExt (rest : List Char) : Option (List Char × Bool) :=
  if 8 ≤ rest.length ∧ rest.drop (rest.length - 7) = extTxtGz then
    some (rest.take (rest.length - 7), true)
  else if 5 ≤ rest.length ∧ rest.drop (rest.length - 4) = extTxt then
    some (rest.take (rest.length - 4), false)
  else none

def matchRotated (name : String) : Option RotParts :=
  match name.data with
  | y1 :: y2 :: y3 :: y4 :: '-' :: m1 :: m2 :: '-' :: d1 :: d2 :: '_' :: rest =>
    if isDigitC y1 && isDigitC y2 && isDigitC y3 && isDigitC y4 &&
       isDigitC m1 && isDigitC m2 && isDigitC d1 && isDigitC d2 then
      match sfxExt rest with
      | some (s, g) => some ⟨val4 y1 y2 y3 y4, val2 m1 m2, val2 d1 d2, s, g⟩
      | none => none
    else none
  | _ => none

def dateChars (y mo d : Nat) : List Char := pad4 y ++ '-' :: (pad2 mo ++ '-' :: pad2 d)

def nameOf (y mo d : Nat) (sfx : List Char) (gz : Bool) : List Char :=
  dateChars y mo d ++ '_' :: (sfx ++ (if gz then extTxtGz else extTxt))

def ymdLe (a b : Nat × Nat × Nat) : Bool :=
  if a.1 < b.1 then true
  else if b.1 < a.1 then false
  else if a.2.1 < b.2.1 then true
  else if b.2.1 < a.2.1 then false
  else decide (a.2.2 ≤ b.2.2)

def ymdLt (a b : Nat × Nat × Nat) : Bool :=
  if a.1 < b.1 then true
  else if b.1 < a.1 then false
  else if a.2.1 < b.2.1 then true
  else if b.2.1 < a.2.1 then false
  else decide (a.2.2 < b.2.2)

/-! The per-subdirectory scan of find_suitable_files -/

def validYmd (y mo d : Nat) : Bool :=
  1 ≤ y && 1 ≤ mo && mo ≤ 12 && 1 ≤ d && d ≤ daysInMonth y mo

def lookupSfx : List (List Char × String) → List Char → Option String
  | [], _ => none
  | (k, v) :: rest, s => if k = s then some v else lookupSfx rest s

def scanGo (target : Nat × Nat × Nat) :
    List String → List (List Char × String) → Except String (List (List Char × String))
  | [], acc => .ok acc
  | n :: rest, acc =>
    match matchRotated n with
    | none => scanGo target rest acc
    | some p =>
      if validYmd p.y p.mo p.dd then
        if ymdLe (p.y, p.mo, p.dd) target && (lookupSfx acc p.sfx).isNone then
          scanGo target rest (acc ++ [(p.sfx, n)])
        else scanGo target rest acc
      else .error "ValueError"

def find_suitable_dir (target : Nat × Nat × Nat) (names : List String) :
    Except String (List (List Char × String)) :=
  scanGo target (sortDesc names) []

def dateOfTimestamp (ts : ℚ) : Nat × Nat × Nat :=
  fromOrdinal (⌊ts / 86400⌋ + 719163).toNat

def find_suitable_files (timestamp : ℚ) (names : List String) :
    Except String (List (List Char × String)) :=
  find_suitable_dir (dateOfTimestamp timestamp) names

def qualifies (target : Nat × Nat × Nat) (s : List Char) (name : String) : Bool :=
  match matchRotated name with
  | some p => p.sfx == s && validYmd p.y p.mo p.dd && ymdLe (p.y, p.mo, p.dd) target
  | none => false

/-! Relaxed JSON value model and a mini JSON parser (flat subset used by the
    order-events and sauce-weight payloads: objects, arrays, strings without
    escapes, unsigned/negative decimal numbers without exponents, booleans,
    null). -/

inductive JVal where
  | jnull
  | jbool (b : Bool)
  | jnum (q : ℚ)
  | jstr (s : String)
  | jarr (xs : List JVal)
  | jobj (kvs : List (String × JVal))

def isWsC (c : Char) : Bool := c = ' ' || c = '\t' || c = '\n' || c = '\r'

def skipWs (cs : List Char) : List Char := cs.dropWhile isWsC

def parseStrBody : List Char → Option (List Char × List Char)
  | [] => none
  | '"' :: rest => some ([], rest)
  | c :: rest =>
    match parseStrBody rest with
    | some (s, r) => some (c :: s, r)
    | none => none

def parseNatDigits : List Char → Nat → Nat × List Char
  | [], acc => (acc, [])
  | c :: rest, acc =>
    if isDigitC c then parseNatDigits rest (acc * 10 + digitVal c)
    else (acc, c :: rest)

def parseNumber (cs : List Char) : Option (ℚ × List Char) :=
  match cs with
  | '-' :: rest =>
    match rest with
    | c :: _ =>
      if isDigitC c then
        match parseNumAbs rest with
        | some (q, r) => some (-q, r)
        | none => none
      else none
    | [] => none
  | c :: _ =>
    if isDigitC c then parseNumAbs cs
    else none
  | [] => none
where
  parseNumAbs (cs : List Char) : Option (ℚ × List Char) :=
    match parseNatDigits cs 0 with
    | (n, rest) =>
      match rest with
      | '.' :: c :: r2 =>
        if isDigitC c then
          match parseNatDigits (c :: r2) 0 with
          | (f, r3) =>
            some ((n : ℚ) + (f : ℚ) / ((10 : ℚ) ^ ((c :: r2).length - r3.length)), r3)
        else some ((n : ℚ), rest)
      | _ => some ((n : ℚ), rest)

mutual

def parseJVal : Nat → List Char → Option (JVal × List Char)
  | 0, _ => none
  | fuel + 1, cs =>
    match skipWs cs with
    | '{' :: rest => parseJObj fuel (skipWs rest) true []
    | '[' :: rest => parseJArr fuel (skipWs rest) true []
    | '"' :: rest =>
      match parseStrBody rest with
      | some (s, r) => some (.jstr ⟨s⟩, r)
      | none => none
    | 't' :: 'r' :: 'u' :: 'e' :: rest => some (.jbool true, rest)
    | 'f' :: 'a' :: 'l' :: 's' :: 'e' :: rest => some (.jbool false, rest)
    | 'n' :: 'u' :: 'l' :: 'l' :: rest => some (.jnull, rest)
    | other =>
      match parseNumber other with
      | some (q, r) => some (.jnum q, r)
      | none => none

def parseJObj : Nat → List Char → Bool → List (String × JVal) →
    Option (JVal × List Char)
  | 0, _, _, _ => none
  | fuel + 1, cs, first, acc =>
    match cs with
    | '}' :: rest =>
      if first then some (.jobj acc.reverse, rest) else none
    | '"' :: rest =>
      match parseStrBody rest with
      | some (k, r1) =>
        match skipWs r1 with
        | ':' :: r2 =>
          match parseJVal fuel r2 with
          | some (v, r3) =>
            match skipWs r3 with
            | ',' :: r4 => parseJObj fuel (skipWs r4) false ((⟨k⟩, v) :: acc)
            | '}' :: r4 => some (.jobj (((⟨k⟩ : String), v) :: acc).reverse, r4)
            | _ => none
          | none => none
        | _ => none
      | none => none
    | _ => none

def parseJArr : Nat → List Char → Bool → List JVal → Option (JVal × List Char)
  | 0, _, _, _ => none
  | fuel + 1, cs, first, acc =>
    match cs with
    | ']' :: rest =>
      if first then some (.jarr acc.reverse, rest) else none
    | _ =>
      match parseJVal fuel cs with
      | some (v, r1) =>
        match skipWs r1 with
        | ',' :: r2 => parseJArr fuel r2 false (v :: acc)
        | ']' :: r2 => some (.jarr (v :: acc).reverse, r2)
        | _ => none
      | none => none

end

def jsonLoads (s : String) : Option JVal :=
  match parseJVal (s.length + 1) s.data with
  | some (v, rest) => if skipWs rest = [] then some v else none
  | none => none

/-! Python-level helpers for the correlation strategies -/

inductive PyErr where
  | valueError (msg : String)
  | keyError (msg : String)
  | typeError (msg : String)
  | attributeError (msg : String)
  | validationError (msg : String)
deriving DecidableEq

def natReprGo : Nat → Nat → List Char
  | 0, _ => []
  | fuel + 1, n =>
    if n < 10 then [digitChar n]
    else natReprGo fuel (n / 10) ++ [digitChar (n % 10)]

def natRepr (n : Nat) : String := ⟨natReprGo (n + 1) n⟩

def intRepr (i : Int) : String :=
  if i < 0 then "-" ++ natRepr i.natAbs else natRepr i.natAbs

/-- `str(x)` for the Python float holding an integral value (e.g. `str(123.0) = "123.0"`).
    Non-integral float repr is not modelled (the claims only exercise integral ids). -/

def pyFloatRepr (q : ℚ) : String :=
  if q.den = 1 then intRepr q.num ++ ".0" else intRepr q.num ++ "/" ++ natRepr q.den

def isPrefChars : List Char → List Char → Bool
  | [], _ => true
  | _ :: _, [] => false
  | a :: as, b :: bs => a == b && isPrefChars as bs

def hasInfix : List Char → List Char → Bool
  | [], needle => needle.isEmpty
  | hay@(_ :: t), needle => isPrefChars needle hay || hasInfix t needle

def strContains (s sub : String) : Bool := hasInfix s.data sub.data

def pySplitOnce (s : String) : Option (String × String) :=
  match s.data.dropWhile isWsC with
  | [] => none
  | cs =>
    match cs.dropWhile (fun c => !isWsC c) with
    | [] => none
    | rest => some (⟨cs.takeWhile (fun c => !isWsC c)⟩, ⟨rest.dropWhile isWsC⟩)

def pySlice (s : String) (a b : Nat) : String := ⟨(s.data.drop a).take (b - a)⟩

def pySliceFrom (s : String) (a : Nat) : String := ⟨s.data.drop a⟩

def pyStrip (s : String) : String :=
  ⟨(s.data.dropWhile isWsC).reverse.dropWhile isWsC |>.reverse⟩

def pyIntDigits : List Char → Option Nat
  | [] => none
  | cs => if cs.all isDigitC then some ((parseNatDigits cs 0).1) else none

def pyInt (s : String) : Option Int :=
  match (s.data.dropWhile isWsC).reverse.dropWhile isWsC |>.reverse with
  | '-' :: ds => (pyIntDigits ds).map (fun n => -(n : Int))
  | '+' :: ds => (pyIntDigits ds).map (fun n => (n : Int))
  | ds => (pyIntDigits ds).map (fun n => (n : Int))

/-- `datetime.strptime(s, "%Y-%m-%d")` with a zero-padded date (plus calendar
    validation), returning the (year, month, day) triple. -/

def strptimeDate (s : String) : Option (Nat × Nat × Nat) :=
  match s.data with
  | [y1, y2, y3, y4, '-', m1, m2, '-', d1, d2] =>
    if isDigitC y1 && isDigitC y2 && isDigitC y3 && isDigitC y4 &&
       isDigitC m1 && isDigitC m2 && isDigitC d1 && isDigitC d2 then
      let y := val4 y1 y2 y3 y4
      let mo := val2 m1 m2
      let d := val2 d1 d2
      if validYmd y mo d then some (y, mo, d) else none
    else none
  | _ => none

/-- `datetime.strptime(s, "%Y-%m-%d %H:%M:%S")` (full-string match, zero-padded
    fields), as epoch seconds of the UTC instant. -/

def strptimeDT (s : String) : Option Int :=
  match tsShape s.data with
  | some p => if s.data.length = 19 ∧ strptimeOk p then some (epochOfParts p) else none
  | none => none

def epochOfYmd (ymd : Nat × Nat × Nat) : Int :=
  ((toOrdinal ymd.1 ymd.2.1 ymd.2.2 : Int) - 719163) * 86400

structure Order where
  uid : ℚ
  start_time : ℚ
  end_time : ℚ
deriving DecidableEq

structure ExtraWeightPoint where
  name : String
  time : ℚ
  value : ℚ
deriving DecidableEq

def jLookup : List (String × JVal) → String → Option JVal
  | [], _ => none
  | (k, v) :: rest, key =>
    match jLookup rest key with
    | some w => some w
    | none => if k = key then some v else none

def asNumList : JVal → Option (List ℚ)
  | .jarr xs => go xs
  | _ => none
where
  go : List JVal → Option (List ℚ)
    | [] => some []
    | .jnum q :: rest => (go rest).map (q :: ·)
    | _ => none

def maxList : List ℚ → Option ℚ
  | [] => none
  | [q] => some q
  | q :: rest =>
    match maxList rest with
    | some m => some (if q ≤ m then m else q)
    | none => none

def pyRoundInt (x : ℚ) : Int :=
  if x - (⌊x⌋ : ℚ) < 1/2 then ⌊x⌋
  else if (1/2 : ℚ) < x - (⌊x⌋ : ℚ) then ⌊x⌋ + 1
  else if ⌊x⌋ % 2 = 0 then ⌊x⌋ else ⌊x⌋ + 1

def pyRound3 (q : ℚ) : ℚ := ((pyRoundInt (q * 1000) : ℚ)) / 1000

/-! OrdersStrategy.fetch_order -/

structure OrderData where
  uid : Option JVal
  start_time : Option ℚ
  end_time : Option ℚ

def mkOrder (od : OrderData) : Except PyErr (Option Order) :=
  if od.uid.isNone && od.start_time.isNone && od.end_time.isNone then .ok none
  else
    match od.uid, od.start_time, od.end_time with
    | some (.jnum u), some st, some et => .ok (some ⟨u, st, et⟩)
    | _, _, _ => .error (.validationError "Order")

def fetchOrderGo (orderId : ℚ) : List String → OrderData → Except PyErr (Option Order)
  | [], _ => .ok none
  | line :: rest, od =>
    if !(strContains line (pyFloatRepr orderId)) then fetchOrderGo orderId rest od
    else if !(strContains line "\"action\": \"new_order\"")
        && !(strContains line "end_screen_weight") then
      fetchOrderGo orderId rest od
    else
      match pySplitOnce line with
      | none => .error (.valueError "not enough values to unpack")
      | some (tsStr, payload) =>
        match strptimeDate tsStr with
        | none => .error (.valueError "strptime")
        | some ymd =>
          match pyInt (pySlice payload 0 2), pyInt (pySlice payload 3 5),
              pyInt (pySlice payload 6 8) with
          | some h, some mi, some s =>
            if 0 ≤ h ∧ h ≤ 23 ∧ 0 ≤ mi ∧ mi ≤ 59 ∧ 0 ≤ s ∧ s ≤ 59 then
              let ts : ℚ := ((epochOfYmd ymd + h * 3600 + mi * 60 + s : Int) : ℚ)
              match jsonLoads (pyStrip (pySliceFrom payload 15)) with
              | none => fetchOrderGo orderId rest od
              | some (.jobj kvs) =>
                if (match jLookup kvs "action" with
                    | some (.jstr a) => a == "new_order"
                    | _ => false) then
                  match jLookup kvs "uid" with
                  | none => .error (.keyError "uid")
                  | some u =>
                    if (jLookup kvs "end_screen_weight").isSome then
                      mkOrder ⟨some u, some ts, some ts⟩
                    else fetchOrderGo orderId rest ⟨some u, some ts, od.end_time⟩
                else
                  if (jLookup kvs "end_screen_weight").isSome then
                    mkOrder ⟨od.uid, od.start_time, some ts⟩
                  else fetchOrderGo orderId rest od
              | some _ => .error (.attributeError "get")
            else .error (.valueError "replace")
          | _, _, _ => .error (.valueError "invalid literal for int")

def fetch_order (orderId : ℚ) (lines : List String) : Except PyErr (Option Order) :=
  fetchOrderGo orderId lines ⟨none, none, none⟩

/-! SauceWeightStrategy.fetch_points -/

def buildPoints (namePre : String) (startT procStart : ℚ) :
    List (ℚ × ℚ) → Nat → List ExtraWeightPoint
  | [], _ => []
  | (dt, v) :: rest, idx =>
    ⟨namePre ++ " " ++ natRepr idx, pyRound3 (procStart + dt - startT), v⟩
      :: buildPoints namePre startT procStart rest (idx + 1)

def quoteSwap (line : String) : String :=
  ⟨line.data.map (fun c => if c.toNat = 39 then '"' else c)⟩

def fetchPointsGo (order : Order) (date : String) (namePre : String) :
    List String → Except PyErr (List ExtraWeightPoint)
  | [] => .ok []
  | line :: rest =>
    match jsonLoads (quoteSwap line) with
    | none => fetchPointsGo order date namePre rest
    | some (.jobj kvs) =>
      match jLookup kvs "time" with
      | none => .error (.keyError "time")
      | some (.jstr tstr) =>
        match strptimeDT (date ++ " " ++ tstr) with
        | none => .error (.valueError "strptime")
        | some rt =>
          if order.start_time ≤ (rt : ℚ) ∧ (rt : ℚ) ≤ order.end_time then
            match jLookup kvs "weight_point_time" with
            | none => .error (.keyError "weight_point_time")
            | some wptv =>
              match asNumList wptv with
              | none => .error (.typeError "weight_point_time")
              | some wpt =>
                match maxList wpt with
                | none => .error (.valueError "max() arg is an empty sequence")
                | some maxDt =>
                  match jLookup kvs "weight_point" with
                  | none => .error (.keyError "weight_point")
                  | some wpv =>
                    match asNumList wpv with
                    | none => .error (.typeError "weight_point")
                    | some wp =>
                      .ok (buildPoints namePre order.start_time
                        ((rt : ℚ) - maxDt) (wpt.zip wp) 1)
          else fetchPointsGo order date namePre rest
      | some _ => .error (.valueError "strptime")
    | some _ => .error (.typeError "record")

def fetch_points (order : Order) (pathName : String) (lines : List String)
    (namePre : String) : Except PyErr (List ExtraWeightPoint) :=
  fetchPointsGo order ⟨pathName.data.takeWhile (fun c => !(c == '_'))⟩ namePre lines

/-! Motor-node composition from fetch_order_data (main.py) -/

def jTruthy : JVal → Bool
  | .jnull => false
  | .jbool b => b
  | .jnum q => decide (q ≠ 0)
  | .jstr s => !s.isEmpty
  | .jarr xs => !xs.isEmpty
  | .jobj kvs => !kvs.isEmpty

def tGet (telemetry : List (String × JVal)) (k : String) : JVal :=
  (jLookup telemetry k).getD (.jarr [])

structure RawSeries where
  time : JVal
  value : JVal

structure MotorRaw where
  velocity : RawSeries
  position : RawSeries
  state : RawSeries
  weight : Option RawSeries

def motor_names : List String :=
  ["truck", "screen", "revolver", "screw", "pump", "lifter", "spade", "clearance", "mixer"]

def composeMotor (telemetry : List (String × JVal)) (motor : String) : MotorRaw :=
  let velocity : RawSeries :=
    ⟨tGet telemetry (motor ++ "_velocity_time"), tGet telemetry (motor ++ "_velocity_value")⟩
  let position : RawSeries :=
    ⟨tGet telemetry (motor ++ "_position_time"), tGet telemetry (motor ++ "_position_value")⟩
  let state : RawSeries :=
    ⟨tGet telemetry (motor ++ "_state_time"), tGet telemetry (motor ++ "_state_value")⟩
  let weight : Option RawSeries :=
    if (jLookup telemetry (motor ++ "_weight_time")).isSome
        && (jLookup telemetry (motor ++ "_weight_value")).isSome then
      some ⟨tGet telemetry (motor ++ "_weight_time"), tGet telemetry (motor ++ "_weight_value")⟩
    else none
  let keepWeight :=
    match weight with
    | some w => jTruthy w.time || jTruthy w.value
    | none => false
  ⟨velocity, position, state, if keepWeight then weight else none⟩

def composeMotors (telemetry : List (String × JVal)) : List (String × MotorRaw) :=
  motor_names.map (fun m => (m, composeMotor telemetry m))

/-! trial claim theorems -/

-- C2 evaluation

-- C2 general: module version keys

-- C3 evaluation

-- C9 evaluation

-- C5 counterexample evaluation

-- C5 amended

-- C7 attempt

-- C1 helper

theorem recoverMD_dayOfYear0 : ∀ (leap : Bool), ∀ m < 12, ∀ d < 31,
    d + 1 ≤ dIM leap (m + 1) →
    recoverMD leap (dayOfYear0 leap (m + 1) (d + 1)) = (m + 1, d + 1) := by decide

theorem dayOfYear0_le_true : ∀ m < 12, ∀ d < 31,
    d + 1 ≤ dIM true (m + 1) →
    dayOfYear0 true (m + 1) (d + 1) ≤ 364 ∨
      (dayOfYear0 true (m + 1) (d + 1) = 365 ∧ m + 1 = 12 ∧ d + 1 = 31) := by decide

theorem dayOfYear0_le_false : ∀ m < 12, ∀ d < 31,
    d + 1 ≤ dIM false (m + 1) →
    dayOfYear0 false (m + 1) (d + 1) ≤ 364 := by decide

theorem isLeap_iff (y : Nat) : isLeap y = true ↔ ((y % 4 = 0 ∧ y % 100 ≠ 0) ∨ y % 400 = 0) := by
  simp [isLeap]

theorem daysInMonth_le (y m : Nat) : daysInMonth y m ≤ 31 := by
  simp only [daysInMonth, daysInMonthNL]
  split
  · omega
  · split <;> omega

theorem dIM_eq (y m : Nat) : dIM (isLeap y) m = daysInMonth y m := by
  simp [dIM, daysInMonth]

theorem leapflag_eq (b c e : Nat) (leap : Bool)
    (hiff : leap = true ↔ (e = 3 ∧ (c ≠ 24 ∨ b = 3))) :
    (e == 3 && (c != 24 || b == 3)) = leap := by
  cases hbv : leap
  · have hnc : ¬ (e = 3 ∧ (c ≠ 24 ∨ b = 3)) := fun hcon => by
      rw [hiff.mpr hcon] at hbv; exact absurd hbv (by simp)
    rcases eq_or_ne e 3 with he3 | he3
    · have hcb : c = 24 ∧ b ≠ 3 := by
        by_contra hcon
        exact hnc ⟨he3, by omega⟩
      simp [he3, hcb.1, hcb.2]
    · simp [he3]
  · rcases hiff.mp hbv with ⟨he3, hcb⟩
    rcases hcb with hcne | hb3
    · simp [he3, hcne]
    · simp [he3, hb3]

theorem fromOrdinal_eval (a b c e doy : Nat) (leap : Bool)
    (hb : b ≤ 3) (hc : c ≤ 24) (he : e ≤ 3)
    (hiff : leap = true ↔ (e = 3 ∧ (c ≠ 24 ∨ b = 3)))
    (hdoy : doy ≤ 364 ∨ (leap = true ∧ doy = 365)) :
    fromOrdinal (146097*a + 36524*b + 1461*c + 365*e + doy + 1) =
      if doy = 365 then (400*a + 100*b + 4*c + e + 1, 12, 31)
      else (400*a + 100*b + 4*c + e + 1,
            (recoverMD leap doy).1, (recoverMD leap doy).2) := by
  simp only [fromOrdinal]
  have hn0 : 146097*a + 36524*b + 1461*c + 365*e + doy + 1 - 1
      = 146097*a + 36524*b + 1461*c + 365*e + doy := by omega
  rw [hn0]
  rcases eq_or_ne doy 365 with h365 | h365
  · -- special case: doy = 365, requires leap per hdoy
    have hleap : leap = true := by
      rcases hdoy with h | h
      · omega
      · exact h.1
    rcases hiff.mp hleap with ⟨he3, hcb⟩
    rw [if_pos h365]
    rcases eq_or_ne c 24 with hc24 | hc24
    · have hb3 : b = 3 := by
        rcases hcb with h | h
        · exact absurd hc24 h
        · exact h
      have h400 : (146097*a + 36524*b + 1461*c + 365*e + doy) / 146097 = a := by omega
      have h400m : (146097*a + 36524*b + 1461*c + 365*e + doy) % 146097 = 146096 := by omega
      rw [h400, h400m]
      norm_num [Prod.mk.injEq]
      omega
    · have h400 : (146097*a + 36524*b + 1461*c + 365*e + doy) / 146097 = a := by omega
      have h400m : (146097*a + 36524*b + 1461*c + 365*e + doy) % 146097
          = 36524*b + 1461*c + 365*e + doy := by omega
      have h100 : (36524*b + 1461*c + 365*e + doy) / 36524 = b := by omega
      have h100m : (36524*b + 1461*c + 365*e + doy) % 36524 = 1461*c + 365*e + doy := by omega
      have h4 : (1461*c + 365*e + doy) / 1461 = c := by omega
      have h4m : (1461*c + 365*e + doy) % 1461 = 365*e + doy := by omega
      have h1 : (365*e + doy) / 365 = 4 := by omega
      rw [h400, h400m, h100, h100m, h4, h4m, h1]
      norm_num [Prod.mk.injEq]
      omega
  · -- normal case: doy ≤ 364
    have hd364 : doy ≤ 364 := by
      rcases hdoy with h | h
      · exact h
      · exact absurd h.2 h365
    rw [if_neg h365]
    have h400 : (146097*a + 36524*b + 1461*c + 365*e + doy) / 146097 = a := by omega
    have h400m : (146097*a + 36524*b + 1461*c + 365*e + doy) % 146097
        = 36524*b + 1461*c + 365*e + doy := by omega
    have h100 : (36524*b + 1461*c + 365*e + doy) / 36524 = b := by omega
    have h100m : (36524*b + 1461*c + 365*e + doy) % 36524 = 1461*c + 365*e + doy := by omega
    have h4 : (1461*c + 365*e + doy) / 1461 = c := by omega
    have h4m : (1461*c + 365*e + doy) % 1461 = 365*e + doy := by omega
    have h1 : (365*e + doy) / 365 = e := by omega
    have h1m : (365*e + doy) % 365 = doy := by omega
    rw [h400, h400m, h100, h100m, h4, h4m, h1, h1m]
    have hnotspec : ¬ (e = 4 ∨ b = 4) := by omega
    rw [if_neg hnotspec, leapflag_eq b c e leap hiff]
    have hyr : a * 400 + b * 100 + c * 4 + e + 1 = 400*a + 100*b + 4*c + e + 1 := by ring
    rw [hyr]

theorem fromOrdinal_toOrdinal (y m d : Nat) (hy : 1 ≤ y) (hm1 : 1 ≤ m) (hm : m ≤ 12)
    (hd1 : 1 ≤ d) (hd : d ≤ daysInMonth y m) :
    fromOrdinal (toOrdinal y m d) = (y, m, d) := by
  obtain ⟨a, b, c, e, hy1, hbb, hcc, hee, hdby, hleape⟩ :
      ∃ a b c e, y - 1 = 400*a + 100*b + 4*c + e ∧ b ≤ 3 ∧ c ≤ 24 ∧ e ≤ 3 ∧
        daysBeforeYear y = 146097*a + 36524*b + 1461*c + 365*e ∧
        (isLeap y = true ↔ (e = 3 ∧ (c ≠ 24 ∨ b = 3))) := by
    refine ⟨(y-1)/400, (y-1)%400/100, (y-1)%400%100/4, (y-1)%400%100%4,
      by omega, by omega, by omega, by omega, ?_, ?_⟩
    · simp only [daysBeforeYear]; omega
    · rw [isLeap_iff]; omega
  have hdim : d ≤ dIM (isLeap y) m := by rw [dIM_eq]; exact hd
  have hdoyfacts : (dayOfYear0 (isLeap y) m d ≤ 364 ∨
      (isLeap y = true ∧ dayOfYear0 (isLeap y) m d = 365)) ∧
      (dayOfYear0 (isLeap y) m d = 365 → (m = 12 ∧ d = 31)) ∧
      recoverMD (isLeap y) (dayOfYear0 (isLeap y) m d) = (m, d) := by
    have hrec := recoverMD_dayOfYear0 (isLeap y) (m-1) (by omega) (d-1)
      (by have := daysInMonth_le y m; omega)
      (by rw [show m - 1 + 1 = m by omega, show d - 1 + 1 = d by omega]; exact hdim)
    rw [show m - 1 + 1 = m by omega, show d - 1 + 1 = d by omega] at hrec
    refine ⟨?_, ?_, hrec⟩ <;>
      cases hbv : isLeap y <;> rw [hbv] at hdim
    · have := dayOfYear0_le_false (m-1) (by omega) (d-1)
        (by have := daysInMonth_le y m; omega)
        (by rw [show m - 1 + 1 = m by omega, show d - 1 + 1 = d by omega]; exact hdim)
      rw [show m - 1 + 1 = m by omega, show d - 1 + 1 = d by omega] at this
      exact Or.inl this
    · have := dayOfYear0_le_true (m-1) (by omega) (d-1)
        (by have := daysInMonth_le y m; omega)
        (by rw [show m - 1 + 1 = m by omega, show d - 1 + 1 = d by omega]; exact hdim)
      rw [show m - 1 + 1 = m by omega, show d - 1 + 1 = d by omega] at this
      rcases this with h | h
      · exact Or.inl h
      · exact Or.inr ⟨rfl, h.1⟩
    · have := dayOfYear0_le_false (m-1) (by omega) (d-1)
        (by have := daysInMonth_le y m; omega)
        (by rw [show m - 1 + 1 = m by omega, show d - 1 + 1 = d by omega]; exact hdim)
      rw [show m - 1 + 1 = m by omega, show d - 1 + 1 = d by omega] at this
      omega
    · have := dayOfYear0_le_true (m-1) (by omega) (d-1)
        (by have := daysInMonth_le y m; omega)
        (by rw [show m - 1 + 1 = m by omega, show d - 1 + 1 = d by omega]; exact hdim)
      rw [show m - 1 + 1 = m by omega, show d - 1 + 1 = d by omega] at this
      rcases this with h | h
      · intro hcon; omega
      · intro _; exact ⟨h.2.1, h.2.2⟩
  have hto : toOrdinal y m d
      = 146097*a + 36524*b + 1461*c + 365*e + dayOfYear0 (isLeap y) m d + 1 := by
    simp only [toOrdinal, hdby]
  rw [hto, fromOrdinal_eval a b c e (dayOfYear0 (isLeap y) m d) (isLeap y)
    hbb hcc hee hleape hdoyfacts.1]
  rcases eq_or_ne (dayOfYear0 (isLeap y) m d) 365 with h365 | h365
  · rw [if_pos h365]
    obtain ⟨hm12, hd31⟩ := hdoyfacts.2.1 h365
    have hyv : 400*a + 100*b + 4*c + e + 1 = y := by omega
    rw [hyv, hm12, hd31]
  · rw [if_neg h365, hdoyfacts.2.2]
    have hyv : 400*a + 100*b + 4*c + e + 1 = y := by omega
    rw [hyv]

theorem digitChar_digitVal (c : Char) (h : isDigitC c = true) :
    digitChar (digitVal c) = c := by
  simp only [isDigitC, Bool.and_eq_true, decide_eq_true_eq] at h
  simp only [digitChar, digitVal]
  rw [show 48 + (c.toNat - 48) = c.toNat by omega]
  exact Char.ofNat_toNat c

theorem digitVal_le (c : Char) (h : isDigitC c = true) : digitVal c ≤ 9 := by
  simp only [isDigitC, Bool.and_eq_true, decide_eq_true_eq] at h
  simp only [digitVal]
  omega

theorem pad2_val2 (a b : Char) (ha : isDigitC a = true) (hb : isDigitC b = true) :
    pad2 (val2 a b) = [a, b] := by
  have h1 := digitVal_le a ha
  have h2 := digitVal_le b hb
  simp only [pad2, val2]
  rw [show (digitVal a * 10 + digitVal b) / 10 = digitVal a by omega,
      show (digitVal a * 10 + digitVal b) % 10 = digitVal b by omega,
      digitChar_digitVal a ha, digitChar_digitVal b hb]

theorem pad4_val4 (a b c d : Char) (ha : isDigitC a = true) (hb : isDigitC b = true)
    (hc : isDigitC c = true) (hd : isDigitC d = true) :
    pad4 (val4 a b c d) = [a, b, c, d] := by
  have h1 := digitVal_le a ha
  have h2 := digitVal_le b hb
  have h3 := digitVal_le c hc
  have h4 := digitVal_le d hd
  simp only [pad4, val4]
  rw [show (digitVal a * 1000 + digitVal b * 100 + digitVal c * 10 + digitVal d) / 1000
        = digitVal a by omega,
      show (digitVal a * 1000 + digitVal b * 100 + digitVal c * 10 + digitVal d) / 100 % 10
        = digitVal b by omega,
      show (digitVal a * 1000 + digitVal b * 100 + digitVal c * 10 + digitVal d) / 10 % 10
        = digitVal c by omega,
      show (digitVal a * 1000 + digitVal b * 100 + digitVal c * 10 + digitVal d) % 10
        = digitVal d by omega,
      digitChar_digitVal a ha, digitChar_digitVal b hb,
      digitChar_digitVal c hc, digitChar_digitVal d hd]

theorem formatEpoch_epochOfParts (p : TsParts) (hok : strptimeOk p = true) :
    formatEpoch (epochOfParts p)
      = ⟨pad4 p.y ++ '-' :: pad2 p.mo ++ '-' :: pad2 p.d ++ ' ' ::
          pad2 p.h ++ ':' :: pad2 p.mi ++ ':' :: pad2 p.s⟩ := by
  simp only [strptimeOk, Bool.and_eq_true, decide_eq_true_eq] at hok
  obtain ⟨⟨⟨⟨⟨⟨⟨hy, hm1⟩, hm2⟩, hd1⟩, hd2⟩, hh⟩, hmi⟩, hs⟩ := hok
  have hord : 1 ≤ toOrdinal p.y p.mo p.d := by
    simp only [toOrdinal]; omega
  have hsecs : p.h * 3600 + p.mi * 60 + p.s < 86400 := by omega
  have hediv : epochOfParts p / 86400 = (toOrdinal p.y p.mo p.d : Int) - 719163 := by
    simp only [epochOfParts]
    omega
  have hemod : epochOfParts p % 86400 = (p.h * 3600 + p.mi * 60 + p.s : Int) := by
    simp only [epochOfParts]
    omega
  simp only [formatEpoch, hediv, hemod]
  rw [show (toOrdinal p.y p.mo p.d : Int) - 719163 + 719163 = (toOrdinal p.y p.mo p.d : Int)
      by ring]
  rw [Int.toNat_ofNat, show ((p.h * 3600 + p.mi * 60 + p.s : Int)).toNat
      = p.h * 3600 + p.mi * 60 + p.s by omega]
  rw [fromOrdinal_toOrdinal p.y p.mo p.d hy hm1 hm2 hd1 hd2]
  rw [show (p.h * 3600 + p.mi * 60 + p.s) / 3600 = p.h by omega,
      show (p.h * 3600 + p.mi * 60 + p.s) / 60 % 60 = p.mi by omega,
      show (p.h * 3600 + p.mi * 60 + p.s) % 60 = p.s by omega]

theorem tsShape_tok (cs : List Char) (p : TsParts) (h : tsShape cs = some p) :
    pad4 p.y ++ '-' :: pad2 p.mo ++ '-' :: pad2 p.d ++ ' ' ::
      pad2 p.h ++ ':' :: pad2 p.mi ++ ':' :: pad2 p.s = p.tok := by
  unfold tsShape at h
  split at h
  case h_2 => exact absurd h (by simp)
  case h_1 y1 y2 y3 y4 m1 m2 d1 d2 h1 h2 i1 i2 s1 s2 rest =>
    split at h
    case isFalse => exact absurd h (by simp)
    case isTrue hdig =>
      simp only [Bool.and_eq_true] at hdig
      obtain ⟨⟨⟨⟨⟨⟨⟨⟨⟨⟨⟨⟨⟨hy1, hy2⟩, hy3⟩, hy4⟩, hm1⟩, hm2⟩, hd1⟩, hd2⟩, hh1⟩, hh2⟩, hi1⟩, hi2⟩, hs1⟩, hs2⟩ := hdig
      injection h with h
      subst h
      simp only
      rw [pad4_val4 y1 y2 y3 y4 hy1 hy2 hy3 hy4,
          pad2_val2 m1 m2 hm1 hm2, pad2_val2 d1 d2 hd1 hd2,
          pad2_val2 h1 h2 hh1 hh2, pad2_val2 i1 i2 hi1 hi2,
          pad2_val2 s1 s2 hs1 hs2]
      rfl

theorem tsMatch_tok (cs : List Char) (p : TsParts) (h : tsMatch cs = some p) :
    pad4 p.y ++ '-' :: pad2 p.mo ++ '-' :: pad2 p.d ++ ' ' ::
      pad2 p.h ++ ':' :: pad2 p.mi ++ ':' :: pad2 p.s = p.tok := by
  unfold tsMatch at h
  split at h
  · exact tsShape_tok _ _ h
  · exact tsShape_tok _ _ h

/-- C8 test -/

theorem iterGo_length (ls : List String) (lc tb : Nat) :
    (iterGo ls lc tb).length ≤ MAX_LINES_PER_FILE - lc := by
  induction ls generalizing lc tb with
  | nil => simp [iterGo]
  | cons l rest ih =>
    simp only [iterGo]
    split
    · simp
    · split
      · simp
      · have := ih (lc + 1) (tb + l.length)
        simp only [List.length_cons]
        omega

theorem iterGo_bytes (ls : List String) (lc tb : Nat) :
    tb + bytesOf (iterGo ls lc tb) ≤ max tb MAX_BYTES_PER_FILE := by
  induction ls generalizing lc tb with
  | nil => simp [iterGo, bytesOf]
  | cons l rest ih =>
    simp only [iterGo]
    split
    · simp [bytesOf]
    · split
      · simp [bytesOf]
      · have := ih (lc + 1) (tb + l.length)
        simp only [bytesOf, List.map_cons, List.sum_cons]
        simp only [bytesOf] at this
        omega

theorem iterGo_take (ls : List String) (lc tb : Nat) :
    ∃ t, iterGo ls lc tb ++ t = ls := by
  induction ls generalizing lc tb with
  | nil => exact ⟨[], rfl⟩
  | cons l rest ih =>
    simp only [iterGo]
    split
    · exact ⟨l :: rest, rfl⟩
    · split
      · exact ⟨l :: rest, rfl⟩
      · obtain ⟨t, ht⟩ := ih (lc + 1) (tb + l.length)
        exact ⟨t, by rw [List.cons_append, ht]⟩

theorem extractScan_sublist (ws we offH : ℚ) (ls : List String) (lastTs : Option ℚ) (fd : Bool) :
    (extractScan ws we offH ls lastTs fd).1.Sublist ls := by
  induction ls generalizing lastTs fd with
  | nil => simp [extractScan]
  | cons l rest ih =>
    simp only [extractScan]
    split
    · split
      · exact (ih _ _).trans (rest.sublist_cons_self l)
      · split
        · exact List.nil_sublist _
        · exact (ih _ _).cons₂ l
    · split
      · split
        · exact (ih _ _).cons₂ l
        · exact (ih _ _).trans (rest.sublist_cons_self l)
      · exact (ih _ _).trans (rest.sublist_cons_self l)

theorem charsLe_refl (l : List Char) : charsLe l l = true := by
  induction l with
  | nil => rfl
  | cons a as ih => simp [charsLe, ih]

theorem charsLe_total (a b : List Char) : charsLe a b = true ∨ charsLe b a = true := by
  induction a generalizing b with
  | nil => left; rfl
  | cons x xs ih =>
    cases b with
    | nil => right; rfl
    | cons y ys =>
      simp only [charsLe]
      rcases Nat.lt_trichotomy x.toNat y.toNat with h | h | h
      · left; simp [h, Nat.not_lt.mpr (Nat.le_of_lt h)]
      · rcases ih ys with hc | hc <;> simp [h, hc]
      · right; simp [h, Nat.not_lt.mpr (Nat.le_of_lt h)]

theorem charsLe_trans (a b c : List Char) (hab : charsLe a b = true)
    (hbc : charsLe b c = true) : charsLe a c = true := by
  induction a generalizing b c with
  | nil => rfl
  | cons x xs ih =>
    cases b with
    | nil => simp [charsLe] at hab
    | cons y ys =>
      cases c with
      | nil => simp [charsLe] at hbc
      | cons z zs =>
        simp only [charsLe] at hab hbc ⊢
        rcases Nat.lt_trichotomy x.toNat y.toNat with h1 | h1 | h1
        · rcases Nat.lt_trichotomy y.toNat z.toNat with h2 | h2 | h2
          · simp [show x.toNat < z.toNat by omega]
          · simp [show x.toNat < z.toNat by omega]
          · rw [if_neg (by omega), if_pos (by omega)] at hbc
            exact absurd hbc (by simp)
        · rw [if_neg (by omega), if_neg (by omega)] at hab
          rcases Nat.lt_trichotomy y.toNat z.toNat with h2 | h2 | h2
          · simp [show x.toNat < z.toNat by omega]
          · rw [if_neg (by omega), if_neg (by omega)] at hbc
            rw [if_neg (by omega), if_neg (by omega)]
            exact ih ys zs hab hbc
          · rw [if_neg (by omega), if_pos (by omega)] at hbc
            exact absurd hbc (by simp)
        · rw [if_neg (by omega), if_pos (by omega)] at hab
          exact absurd hab (by simp)

theorem strLe_total (a b : String) : strLe a b = true ∨ strLe b a = true :=
  charsLe_total a.data b.data

theorem strLe_trans (a b c : String) (hab : strLe a b = true) (hbc : strLe b c = true) :
    strLe a c = true :=
  charsLe_trans a.data b.data c.data hab hbc

theorem insertDesc_perm (x : String) (l : List String) :
    (insertDesc x l).Perm (x :: l) := by
  induction l with
  | nil => exact List.Perm.refl _
  | cons y ys ih =>
    simp only [insertDesc]
    split
    · exact List.Perm.refl _
    · exact (List.Perm.cons y ih).trans (List.Perm.swap x y ys)

theorem sortDesc_perm (l : List String) : (sortDesc l).Perm l := by
  induction l with
  | nil => exact List.Perm.refl _
  | cons x xs ih =>
    simp only [sortDesc, List.foldr_cons]
    exact (insertDesc_perm x _).trans (List.Perm.cons x ih)

theorem insertDesc_sorted (x : String) (l : List String)
    (hl : l.Pairwise (fun a b => strLe b a = true)) :
    (insertDesc x l).Pairwise (fun a b => strLe b a = true) := by
  induction l with
  | nil => simp [insertDesc]
  | cons y ys ih =>
    simp only [insertDesc]
    rcases List.pairwise_cons.mp hl with ⟨hy, hys⟩
    split
    case isTrue h =>
      refine List.pairwise_cons.mpr ⟨?_, hl⟩
      intro z hz
      rcases hz with _ | hz
      · exact h
      · exact strLe_trans _ _ _ (hy _ (by assumption)) h
    case isFalse h =>
      have hxy : strLe x y = true := by
        rcases strLe_total y x with hc | hc
        · exact absurd hc h
        · exact hc
      refine List.pairwise_cons.mpr ⟨?_, ih hys⟩
      intro z hz
      rcases List.mem_cons.mp ((insertDesc_perm x ys).mem_iff.mp hz) with hz1 | hz1
      · subst hz1; exact hxy
      · exact hy _ hz1

theorem sortDesc_sorted (l : List String) :
    (sortDesc l).Pairwise (fun a b => strLe b a = true) := by
  induction l with
  | nil => simp [sortDesc]
  | cons x xs ih => exact insertDesc_sorted x _ ih

theorem val2_lt (a b : Char) (ha : isDigitC a = true) (hb : isDigitC b = true) :
    val2 a b < 100 := by
  have h1 := digitVal_le a ha
  have h2 := digitVal_le b hb
  simp only [val2]; omega

theorem val4_lt (a b c d : Char) (ha : isDigitC a = true) (hb : isDigitC b = true)
    (hc : isDigitC c = true) (hd : isDigitC d = true) : val4 a b c d < 10000 := by
  have h1 := digitVal_le a ha
  have h2 := digitVal_le b hb
  have h3 := digitVal_le c hc
  have h4 := digitVal_le d hd
  simp only [val4]; omega

theorem sfxExt_decomp (rest : List Char) (s : List Char) (g : Bool)
    (h : sfxExt rest = some (s, g)) :
    rest = s ++ (if g then extTxtGz else extTxt) ∧ s ≠ [] := by
  unfold sfxExt at h
  split at h
  case isTrue hc =>
    obtain ⟨hlen, hdrop⟩ := hc
    injection h with h
    rw [Prod.mk.injEq] at h
    obtain ⟨hs, hg⟩ := h
    subst hs
    subst hg
    refine ⟨?_, ?_⟩
    · rw [if_pos rfl, ← hdrop, List.take_append_drop]
    · have : (rest.take (rest.length - 7)).length = rest.length - 7 := by
        rw [List.length_take]; omega
      intro hnil
      rw [hnil] at this
      simp at this
      omega
  case isFalse =>
    split at h
    case isTrue hc =>
      obtain ⟨hlen, hdrop⟩ := hc
      injection h with h
      rw [Prod.mk.injEq] at h
      obtain ⟨hs, hg⟩ := h
      subst hs
      subst hg
      refine ⟨?_, ?_⟩
      · rw [if_neg (by simp), ← hdrop, List.take_append_drop]
      · have : (rest.take (rest.length - 4)).length = rest.length - 4 := by
          rw [List.length_take]; omega
        intro hnil
        rw [hnil] at this
        simp at this
        omega
    case isFalse => exact absurd h (by simp)

theorem matchRotated_decomp (name : String) (p : RotParts)
    (h : matchRotated name = some p) :
    name.data = nameOf p.y p.mo p.dd p.sfx p.gz ∧
      p.y < 10000 ∧ p.mo < 100 ∧ p.dd < 100 ∧ p.sfx ≠ [] := by
  unfold matchRotated at h
  split at h
  case h_2 => exact absurd h (by simp)
  case h_1 y1 y2 y3 y4 m1 m2 d1 d2 rest heq =>
    split at h
    case isFalse => exact absurd h (by simp)
    case isTrue hdig =>
      simp only [Bool.and_eq_true] at hdig
      obtain ⟨⟨⟨⟨⟨⟨⟨hy1, hy2⟩, hy3⟩, hy4⟩, hm1⟩, hm2⟩, hd1⟩, hd2⟩ := hdig
      cases hse : sfxExt rest with
      | none => rw [hse] at h; exact absurd h (by simp)
      | some sg =>
        rw [hse] at h
        obtain ⟨s, g⟩ := sg
        injection h with h
        subst h
        obtain ⟨hrest, hne⟩ := sfxExt_decomp rest s g hse
        refine ⟨?_, val4_lt _ _ _ _ hy1 hy2 hy3 hy4, val2_lt _ _ hm1 hm2,
          val2_lt _ _ hd1 hd2, hne⟩
        simp only [nameOf, dateChars]
        rw [heq, pad4_val4 y1 y2 y3 y4 hy1 hy2 hy3 hy4,
          pad2_val2 m1 m2 hm1 hm2, pad2_val2 d1 d2 hd1 hd2, hrest]
        rfl

theorem digitChar_toNat (n : Nat) (h : n ≤ 9) : (digitChar n).toNat = 48 + n := by
  interval_cases n <;> decide

theorem charsLe_cons_same (c : Char) (as bs : List Char) :
    charsLe (c :: as) (c :: bs) = charsLe as bs := by
  simp [charsLe]

theorem charsLe_append_same (xs a b : List Char) :
    charsLe (xs ++ a) (xs ++ b) = charsLe a b := by
  induction xs with
  | nil => rfl
  | cons c cs ih => rw [List.cons_append, List.cons_append, charsLe_cons_same, ih]

theorem charsLe_pad2 (n m : Nat) (hn : n < 100) (hm : m < 100) (r1 r2 : List Char) :
    charsLe (pad2 n ++ r1) (pad2 m ++ r2)
      = if n = m then charsLe r1 r2 else decide (n < m) := by
  simp only [pad2, List.cons_append, List.nil_append]
  rw [show charsLe (digitChar (n / 10) :: digitChar (n % 10) :: r1)
        (digitChar (m / 10) :: digitChar (m % 10) :: r2)
      = (if (digitChar (n / 10)).toNat < (digitChar (m / 10)).toNat then true
         else if (digitChar (m / 10)).toNat < (digitChar (n / 10)).toNat then false
         else if (digitChar (n % 10)).toNat < (digitChar (m % 10)).toNat then true
         else if (digitChar (m % 10)).toNat < (digitChar (n % 10)).toNat then false
         else charsLe r1 r2) from by simp [charsLe]]
  rw [digitChar_toNat _ (by omega), digitChar_toNat _ (by omega),
      digitChar_toNat _ (by omega), digitChar_toNat _ (by omega)]
  rcases Nat.lt_trichotomy (n / 10) (m / 10) with h1 | h1 | h1
  · rw [if_pos (by omega), if_neg (by omega : ¬ n = m)]
    simp [show n < m by omega]
  · rw [if_neg (by omega), if_neg (by omega)]
    rcases Nat.lt_trichotomy (n % 10) (m % 10) with h2 | h2 | h2
    · rw [if_pos (by omega), if_neg (by omega : ¬ n = m)]
      simp [show n < m by omega]
    · rw [if_neg (by omega), if_neg (by omega), if_pos (by omega : n = m)]
    · rw [if_neg (by omega), if_pos (by omega), if_neg (by omega : ¬ n = m)]
      simp [show ¬ n < m by omega]
  · rw [if_neg (by omega), if_pos (by omega), if_neg (by omega : ¬ n = m)]
    simp [show ¬ n < m by omega]

theorem pad4_eq_pad2 (n : Nat) (_hn : n < 10000) :
    pad4 n = pad2 (n / 100) ++ pad2 (n % 100) := by
  simp only [pad4, pad2, List.cons_append, List.nil_append]
  rw [show n / 100 / 10 = n / 1000 by omega, show n / 100 % 10 = n / 100 % 10 from rfl,
      show n % 100 / 10 = n / 10 % 10 by omega, show n % 100 % 10 = n % 10 by omega]

theorem charsLe_pad4 (n m : Nat) (hn : n < 10000) (hm : m < 10000) (r1 r2 : List Char) :
    charsLe (pad4 n ++ r1) (pad4 m ++ r2)
      = if n = m then charsLe r1 r2 else decide (n < m) := by
  rw [pad4_eq_pad2 n hn, pad4_eq_pad2 m hm, List.append_assoc, List.append_assoc]
  rw [charsLe_pad2 (n / 100) (m / 100) (by omega) (by omega)]
  rcases Nat.lt_trichotomy (n / 100) (m / 100) with h1 | h1 | h1
  · rw [if_neg (by omega), if_neg (by omega : ¬ n = m)]
    exact decide_eq_decide.mpr (by omega)
  · rw [if_pos (by omega)]
    rw [charsLe_pad2 (n % 100) (m % 100) (by omega) (by omega)]
    rcases Nat.lt_trichotomy (n % 100) (m % 100) with h2 | h2 | h2
    · rw [if_neg (by omega), if_neg (by omega : ¬ n = m)]
      exact decide_eq_decide.mpr (by omega)
    · rw [if_pos (by omega), if_pos (by omega : n = m)]
    · rw [if_neg (by omega), if_neg (by omega : ¬ n = m)]
      exact decide_eq_decide.mpr (by omega)
  · rw [if_neg (by omega), if_neg (by omega : ¬ n = m)]
    exact decide_eq_decide.mpr (by omega)

theorem ymdLt_fst (y1 y2 mo1 d1 mo2 d2 : Nat) (h : y1 ≠ y2) :
    ymdLt (y1, mo1, d1) (y2, mo2, d2) = decide (y1 < y2) := by
  simp only [ymdLt]
  rcases Nat.lt_trichotomy y1 y2 with hc | hc | hc
  · rw [if_pos (by exact hc)]
    simp [hc]
  · exact absurd hc h
  · rw [if_neg (by omega), if_pos (by exact hc)]
    simp [show ¬ y1 < y2 by omega]

theorem ymdLt_snd (y mo1 d1 mo2 d2 : Nat) (h : mo1 ≠ mo2) :
    ymdLt (y, mo1, d1) (y, mo2, d2) = decide (mo1 < mo2) := by
  simp only [ymdLt]
  rw [if_neg (by omega), if_neg (by omega)]
  rcases Nat.lt_trichotomy mo1 mo2 with hc | hc | hc
  · rw [if_pos (by exact hc)]
    simp [hc]
  · exact absurd hc h
  · rw [if_neg (by omega), if_pos (by exact hc)]
    simp [show ¬ mo1 < mo2 by omega]

theorem ymdLt_trd (y mo d1 d2 : Nat) :
    ymdLt (y, mo, d1) (y, mo, d2) = decide (d1 < d2) := by
  simp only [ymdLt]
  rw [if_neg (by omega), if_neg (by omega), if_neg (by omega), if_neg (by omega)]

theorem charsLe_dateChars (y1 mo1 d1 y2 mo2 d2 : Nat)
    (hy1 : y1 < 10000) (hy2 : y2 < 10000) (hm1 : mo1 < 100) (hm2 : mo2 < 100)
    (hd1 : d1 < 100) (hd2 : d2 < 100) (r1 r2 : List Char) :
    charsLe (dateChars y1 mo1 d1 ++ r1) (dateChars y2 mo2 d2 ++ r2)
      = if (y1, mo1, d1) = (y2, mo2, d2) then charsLe r1 r2
        else ymdLt (y1, mo1, d1) (y2, mo2, d2) := by
  simp only [dateChars, List.append_assoc, List.cons_append]
  rw [charsLe_pad4 y1 y2 hy1 hy2]
  rcases eq_or_ne y1 y2 with hy | hy
  · subst hy
    rw [if_pos rfl, charsLe_cons_same, charsLe_pad2 mo1 mo2 hm1 hm2]
    rcases eq_or_ne mo1 mo2 with hmo | hmo
    · subst hmo
      rw [if_pos rfl, charsLe_cons_same, charsLe_pad2 d1 d2 hd1 hd2]
      rcases eq_or_ne d1 d2 with hd | hd
      · subst hd
        rw [if_pos rfl, if_pos rfl]
      · rw [if_neg hd, if_neg (by simp [hd]), ymdLt_trd]
    · rw [if_neg hmo, if_neg (by simp [hmo]), ymdLt_snd _ _ _ _ _ hmo]
  · rw [if_neg hy, if_neg (by simp [hy]), ymdLt_fst _ _ _ _ _ _ hy]

theorem charsLe_ext (g1 g2 : Bool) :
    charsLe (if g1 then extTxtGz else extTxt) (if g2 then extTxtGz else extTxt)
      = (!g1 || g2) := by
  cases g1 <;> cases g2 <;> decide

theorem nameOrder (y1 mo1 d1 y2 mo2 d2 : Nat) (s : List Char) (g1 g2 : Bool)
    (hy1 : y1 < 10000) (hy2 : y2 < 10000) (hm1 : mo1 < 100) (hm2 : mo2 < 100)
    (hd1 : d1 < 100) (hd2 : d2 < 100)
    (h : charsLe (nameOf y1 mo1 d1 s g1) (nameOf y2 mo2 d2 s g2) = true) :
    ymdLt (y1, mo1, d1) (y2, mo2, d2) = true ∨
      ((y1, mo1, d1) = (y2, mo2, d2) ∧ (g1 = g2 ∨ g2 = true)) := by
  unfold nameOf at h
  rw [charsLe_dateChars y1 mo1 d1 y2 mo2 d2 hy1 hy2 hm1 hm2 hd1 hd2] at h
  rcases eq_or_ne (y1, mo1, d1) (y2, mo2, d2) with he | he
  · rw [if_pos he, charsLe_cons_same, charsLe_append_same, charsLe_ext] at h
    right
    refine ⟨he, ?_⟩
    cases g1 <;> cases g2 <;> simp_all
  · rw [if_neg he] at h
    exact Or.inl h

theorem lookupSfx_append (acc : List (List Char × String)) (k s : List Char) (v : String) :
    lookupSfx (acc ++ [(k, v)]) s
      = match lookupSfx acc s with
        | some w => some w
        | none => if k = s then some v else none := by
  induction acc with
  | nil => simp [lookupSfx]
  | cons a rest ih =>
    obtain ⟨ka, va⟩ := a
    simp only [List.cons_append, lookupSfx]
    split
    · rfl
    · exact ih

theorem scanGo_preserve (target : Nat × Nat × Nat) (names : List String)
    (acc m : List (List Char × String)) (s : List Char) (v : String)
    (h : scanGo target names acc = .ok m) (hl : lookupSfx acc s = some v) :
    lookupSfx m s = some v := by
  induction names generalizing acc with
  | nil =>
    simp only [scanGo] at h
    injection h with h
    subst h
    exact hl
  | cons n rest ih =>
    simp only [scanGo] at h
    split at h
    · exact ih acc h hl
    · split at h
      · split at h
        · refine ih _ h ?_
          rw [lookupSfx_append, hl]
        · exact ih acc h hl
      · exact absurd h (by simp)

theorem scanGo_lookup (target : Nat × Nat × Nat) (names : List String)
    (acc m : List (List Char × String)) (s : List Char)
    (h : scanGo target names acc = .ok m) (hl : lookupSfx acc s = none) :
    lookupSfx m s = names.find? (qualifies target s) := by
  induction names generalizing acc with
  | nil =>
    simp only [scanGo] at h
    injection h with h
    subst h
    simp [hl]
  | cons n rest ih =>
    simp only [scanGo] at h
    simp only [List.find?_cons]
    split at h
    case h_1 hmr =>
      rw [show qualifies target s n = false from by simp [qualifies, hmr]]
      exact ih acc h hl
    case h_2 p hmr =>
      split at h
      case isFalse hval => exact absurd h (by simp)
      case isTrue hval =>
        rcases eq_or_ne p.sfx s with hsfx | hsfx
        · subst hsfx
          split at h
          case isTrue hcond =>
            simp only [Bool.and_eq_true, Option.isNone_iff_eq_none] at hcond
            rw [show qualifies target p.sfx n = true from by
              simp [qualifies, hmr, hval, hcond.1]]
            refine scanGo_preserve target rest _ m p.sfx n h ?_
            rw [lookupSfx_append, hl, if_pos rfl]
          case isFalse hcond =>
            have hylt : ymdLe (p.y, p.mo, p.dd) target = false := by
              rcases Bool.eq_false_or_eq_true (ymdLe (p.y, p.mo, p.dd) target) with hc | hc
              · rw [hc] at hcond
                simp [hl] at hcond
              · exact hc
            rw [show qualifies target p.sfx n = false from by
              simp [qualifies, hval, hmr, hylt]]
            exact ih acc h hl
        · rw [show qualifies target s n = false from by
            simp [qualifies, hmr, beq_eq_false_iff_ne.mpr hsfx]]
          split at h
          · refine ih _ h ?_
            rw [lookupSfx_append, hl, if_neg hsfx]
          · exact ih acc h hl

theorem sortedFind (l : List String) (p : String → Bool) (c : String)
    (hs : l.Pairwise (fun a b => strLe b a = true)) (hf : l.find? p = some c) :
    ∀ q ∈ l, p q = true → strLe q c = true := by
  induction l with
  | nil => simp at hf
  | cons a rest ih =>
    rw [List.find?_cons] at hf
    rcases List.pairwise_cons.mp hs with ⟨ha, hrest⟩
    intro q hq hpq
    split at hf
    · injection hf with hf
      subst hf
      rcases List.mem_cons.mp hq with hq1 | hq1
      · subst hq1
        exact strLe_trans _ _ _ (charsLe_refl _) (charsLe_refl _)
      · exact ha q hq1
    · rcases List.mem_cons.mp hq with hq1 | hq1
      · subst hq1
        rw [hpq] at *
        simp_all
      · exact ih hrest hf q hq1 hpq

theorem scanGo_valid (target : Nat × Nat × Nat) (names : List String)
    (acc m : List (List Char × String))
    (h : scanGo target names acc = .ok m) :
    ∀ q ∈ names, ∀ pq : RotParts, matchRotated q = some pq →
      validYmd pq.y pq.mo pq.dd = true := by
  induction names generalizing acc with
  | nil => intro q hq; simp at hq
  | cons n rest ih =>
    simp only [scanGo] at h
    intro q hq pq hmq
    rcases List.mem_cons.mp hq with hq1 | hq1
    · subst hq1
      split at h
      case h_1 hmr => rw [hmr] at hmq; exact absurd hmq (by simp)
      case h_2 p hmr =>
        rw [hmr] at hmq
        injection hmq with hmq
        subst hmq
        split at h
        case isTrue hval => exact hval
        case isFalse hval => exact absurd h (by simp)
    · split at h
      case h_1 hmr => exact ih acc h q hq1 pq hmq
      case h_2 p hmr =>
        split at h
        case isTrue hval =>
          split at h
          · exact ih _ h q hq1 pq hmq
          · exact ih acc h q hq1 pq hmq
        case isFalse hval => exact absurd h (by simp)

theorem find_suitable_dir_max (target : Nat × Nat × Nat) (names : List String)
    (m : List (List Char × String)) (s : List Char) (chosen : String)
    (h : find_suitable_dir target names = .ok m)
    (hl : lookupSfx m s = some chosen) :
    chosen ∈ names ∧
      ∃ p : RotParts, matchRotated chosen = some p ∧ p.sfx = s ∧
        validYmd p.y p.mo p.dd = true ∧ ymdLe (p.y, p.mo, p.dd) target = true ∧
        ∀ q ∈ names, ∀ pq : RotParts, matchRotated q = some pq → pq.sfx = s →
          ymdLe (pq.y, pq.mo, pq.dd) target = true →
          (ymdLt (pq.y, pq.mo, pq.dd) (p.y, p.mo, p.dd) = true ∨
            ((pq.y, pq.mo, pq.dd) = (p.y, p.mo, p.dd) ∧ (pq.gz = p.gz ∨ p.gz = true))) := by
  unfold find_suitable_dir at h
  have hfind := scanGo_lookup target (sortDesc names) [] m s h rfl
  rw [hl] at hfind
  have hchosen := List.mem_of_find?_eq_some hfind.symm
  have hq := List.find?_some hfind.symm
  have hmem : chosen ∈ names := (sortDesc_perm names).mem_iff.mp hchosen
  refine ⟨hmem, ?_⟩
  simp only [qualifies] at hq
  cases hmc : matchRotated chosen with
  | none => rw [hmc] at hq; simp at hq
  | some p =>
    rw [hmc] at hq
    simp only [Bool.and_eq_true, beq_iff_eq] at hq
    obtain ⟨⟨hps, hpv⟩, hpy⟩ := hq
    refine ⟨p, rfl, hps, hpv, hpy, ?_⟩
    intro q hqn pq hmq hqs hqy
    have hqv := scanGo_valid target (sortDesc names) [] m h q
      ((sortDesc_perm names).mem_iff.mpr hqn) pq hmq
    have hqual : qualifies target s q = true := by
      simp [qualifies, hmq, hqs, hqv, hqy]
    have hle := sortedFind (sortDesc names) (qualifies target s) chosen
      (sortDesc_sorted names) hfind.symm q ((sortDesc_perm names).mem_iff.mpr hqn) hqual
    obtain ⟨hqd, hqy4, hqm2, hqd2, _⟩ := matchRotated_decomp q pq hmq
    obtain ⟨hcd, hcy4, hcm2, hcd2, _⟩ := matchRotated_decomp chosen p hmc
    have hle' : charsLe (nameOf pq.y pq.mo pq.dd s pq.gz)
        (nameOf p.y p.mo p.dd s p.gz) = true := by
      have hle2 := hle
      unfold strLe at hle2
      rw [hqd, hcd, hqs, hps] at hle2
      exact hle2
    exact nameOrder pq.y pq.mo pq.dd p.y p.mo p.dd s pq.gz p.gz
      hqy4 hcy4 hqm2 hcm2 hqd2 hcd2 hle'

theorem find_suitable_dir_complete (target : Nat × Nat × Nat) (names : List String)
    (m : List (List Char × String)) (s : List Char) (q : String) (pq : RotParts)
    (h : find_suitable_dir target names = .ok m)
    (hqn : q ∈ names) (hmq : matchRotated q = some pq) (hqs : pq.sfx = s)
    (hqy : ymdLe (pq.y, pq.mo, pq.dd) target = true) :
    ∃ v, lookupSfx m s = some v := by
  unfold find_suitable_dir at h
  have hfind := scanGo_lookup target (sortDesc names) [] m s h rfl
  have hqv := scanGo_valid target (sortDesc names) [] m h q
    ((sortDesc_perm names).mem_iff.mpr hqn) pq hmq
  have hqual : qualifies target s q = true := by
    simp [qualifies, hmq, hqs, hqv, hqy]
  have : (sortDesc names).find? (qualifies target s) ≠ none := by
    intro hcon
    have := List.find?_eq_none.mp hcon q ((sortDesc_perm names).mem_iff.mpr hqn)
    exact absurd hqual (by simp [this])
  rw [hfind]
  cases hc : (sortDesc names).find? (qualifies target s) with
  | none => exact absurd hc this
  | some v => exact ⟨v, rfl⟩

theorem pyRoundInt_intCast (m : Int) : pyRoundInt ((m : ℚ)) = m := by
  unfold pyRoundInt
  rw [Int.floor_intCast, if_pos (by simp)]

theorem pyRound3_intCast (n : Int) : pyRound3 ((n : ℚ)) = (n : ℚ) := by
  unfold pyRound3
  rw [show ((n : ℚ)) * 1000 = (((n * 1000 : Int) : ℚ)) by push_cast; ring,
    pyRoundInt_intCast]
  push_cast
  ring

theorem maxList_ne_nil (l : List ℚ) (h : l ≠ []) : ∃ m, maxList l = some m := by
  induction l with
  | nil => exact absurd rfl h
  | cons q rest ih =>
    cases rest with
    | nil => exact ⟨q, rfl⟩
    | cons r rs =>
      obtain ⟨m, hm⟩ := ih (by simp)
      refine ⟨if q ≤ m then m else q, ?_⟩
      simp only [maxList, hm]

theorem buildPoints_length (namePre : String) (st ps : ℚ) (l : List (ℚ × ℚ)) (idx : Nat) :
    (buildPoints namePre st ps l idx).length = l.length := by
  induction l generalizing idx with
  | nil => rfl
  | cons a rest ih =>
    obtain ⟨dt, v⟩ := a
    simp only [buildPoints, List.length_cons, ih]

theorem parse_timestamp_eval (line : String) (p : TsParts) (n : Int)
    (hm : tsMatch line.data = some p) (hok : strptimeOk p = true)
    (hn : epochOfParts p = n) :
    parse_timestamp line 0 = some ((n : Int) : ℚ) := by
  simp only [parse_timestamp, hm, hok, if_true, hn]
  norm_num

theorem bytesOf_sublist (l1 l2 : List String) (h : l1.Sublist l2) :
    bytesOf l1 ≤ bytesOf l2 := by
  induction h with
  | slnil => exact le_refl _
  | cons a h ih =>
    simp only [bytesOf, List.map_cons, List.sum_cons] at *
    omega
  | cons₂ a h ih =>
    simp only [bytesOf, List.map_cons, List.sum_cons] at *
    omega

theorem scanEvalC1 :
    extractScan 1704067255 1704067265 0
      ["2024-01-01 00:00:50 a\n",
       "2024-01-01 00:00:54 b\n",
       "2024-01-01 00:00:56 c\n",
       "2024-01-01 00:01:01 d\n",
       "2024-01-01 00:01:20 e\n",
       "2024-01-01 00:01:30 f\n"]
      none false
    = (["2024-01-01 00:00:56 c\n", "2024-01-01 00:01:01 d\n"], 5, true) := by
  have hp1 := parse_timestamp_eval "2024-01-01 00:00:50 a\n"
    ⟨2024, 1, 1, 0, 0, 50, "2024-01-01 00:00:50".data⟩ 1704067250 (by rfl) (by rfl) (by rfl)
  have hp2 := parse_timestamp_eval "2024-01-01 00:00:54 b\n"
    ⟨2024, 1, 1, 0, 0, 54, "2024-01-01 00:00:54".data⟩ 1704067254 (by rfl) (by rfl) (by rfl)
  have hp3 := parse_timestamp_eval "2024-01-01 00:00:56 c\n"
    ⟨2024, 1, 1, 0, 0, 56, "2024-01-01 00:00:56".data⟩ 1704067256 (by rfl) (by rfl) (by rfl)
  have hp4 := parse_timestamp_eval "2024-01-01 00:01:01 d\n"
    ⟨2024, 1, 1, 0, 1, 1, "2024-01-01 00:01:01".data⟩ 1704067261 (by rfl) (by rfl) (by rfl)
  have hp5 := parse_timestamp_eval "2024-01-01 00:01:20 e\n"
    ⟨2024, 1, 1, 0, 1, 20, "2024-01-01 00:01:20".data⟩ 1704067280 (by rfl) (by rfl) (by rfl)
  simp only [extractScan, hp1, hp2, hp3, hp4, hp5]
  norm_num

theorem mainScanEvalC1 :
    mainScan 1704067255 1704067265 0
      ["2024-01-01 00:00:50 a\n",
       "2024-01-01 00:00:54 b\n",
       "2024-01-01 00:00:56 c\n",
       "2024-01-01 00:01:01 d\n",
       "2024-01-01 00:01:20 e\n",
       "2024-01-01 00:01:30 f\n"]
      none false
    = (["2024-01-01 00:00:56 c\n", "2024-01-01 00:01:01 d\n"], 5, true) := by
  have hp1 := parse_timestamp_eval "2024-01-01 00:00:50 a\n"
    ⟨2024, 1, 1, 0, 0, 50, "2024-01-01 00:00:50".data⟩ 1704067250 (by rfl) (by rfl) (by rfl)
  have hp2 := parse_timestamp_eval "2024-01-01 00:00:54 b\n"
    ⟨2024, 1, 1, 0, 0, 54, "2024-01-01 00:00:54".data⟩ 1704067254 (by rfl) (by rfl) (by rfl)
  have hp3 := parse_timestamp_eval "2024-01-01 00:00:56 c\n"
    ⟨2024, 1, 1, 0, 0, 56, "2024-01-01 00:00:56".data⟩ 1704067256 (by rfl) (by rfl) (by rfl)
  have hp4 := parse_timestamp_eval "2024-01-01 00:01:01 d\n"
    ⟨2024, 1, 1, 0, 1, 1, "2024-01-01 00:01:01".data⟩ 1704067261 (by rfl) (by rfl) (by rfl)
  have hp5 := parse_timestamp_eval "2024-01-01 00:01:20 e\n"
    ⟨2024, 1, 1, 0, 1, 20, "2024-01-01 00:01:20".data⟩ 1704067280 (by rfl) (by rfl) (by rfl)
  simp only [mainScan, hp1, hp2, hp3, hp4, hp5]
  norm_num

theorem entryEvalC1 :
    extract_log_window 1704067255 1704067265 "app/x.txt" "/logs/app/x.txt"
      ["2024-01-01 00:00:50 a\n",
       "2024-01-01 00:00:54 b\n",
       "2024-01-01 00:00:56 c\n",
       "2024-01-01 00:01:01 d\n",
       "2024-01-01 00:01:20 e\n",
       "2024-01-01 00:01:30 f\n"]
    = ⟨"/logs/app/x.txt", "2024-01-01 00:00:56 c\n2024-01-01 00:01:01 d\n"⟩ := by
  simp only [extract_log_window]
  rw [show offsetFor "app/x.txt" = 0 from rfl]
  rw [show iter_lines_with_limits
      ["2024-01-01 00:00:50 a\n",
       "2024-01-01 00:00:54 b\n",
       "2024-01-01 00:00:56 c\n",
       "2024-01-01 00:01:01 d\n",
       "2024-01-01 00:01:20 e\n",
       "2024-01-01 00:01:30 f\n"]
    = ["2024-01-01 00:00:50 a\n",
       "2024-01-01 00:00:54 b\n",
       "2024-01-01 00:00:56 c\n",
       "2024-01-01 00:01:01 d\n",
       "2024-01-01 00:01:20 e\n",
       "2024-01-01 00:01:30 f\n"] from rfl]
  rw [scanEvalC1]
  rfl

/-- Claim C1 (counterexample): with line timestamps T-10, T-6, T-4, T+1, T+20 (T =
2024-01-01 00:01:00 UTC, epoch 1704067260) and window [T-5, T+5], the extractor
retains exactly the TWO lines timestamped T-4 and T+1, not the middle three: the
T-6 line lies outside the window.  Both the log_window_extractor.py scan
(extractScan) and the inline main.py scan (mainScan) agree. -/
theorem c1_window_example_counterexample :
    (extractScan 1704067255 1704067265 0
        ["2024-01-01 00:00:50 a\n",
       "2024-01-01 00:00:54 b\n",
       "2024-01-01 00:00:56 c\n",
       "2024-01-01 00:01:01 d\n",
       "2024-01-01 00:01:20 e\n",
       "2024-01-01 00:01:30 f\n"]
        none false).1
      = ["2024-01-01 00:00:56 c\n", "2024-01-01 00:01:01 d\n"] ∧
    (extractScan 1704067255 1704067265 0
        ["2024-01-01 00:00:50 a\n",
       "2024-01-01 00:00:54 b\n",
       "2024-01-01 00:00:56 c\n",
       "2024-01-01 00:01:01 d\n",
       "2024-01-01 00:01:20 e\n",
       "2024-01-01 00:01:30 f\n"]
        none false).1
      ≠ ["2024-01-01 00:00:54 b\n", "2024-01-01 00:00:56 c\n", "2024-01-01 00:01:01 d\n"] ∧
    (mainScan 1704067255 1704067265 0
        ["2024-01-01 00:00:50 a\n",
       "2024-01-01 00:00:54 b\n",
       "2024-01-01 00:00:56 c\n",
       "2024-01-01 00:01:01 d\n",
       "2024-01-01 00:01:20 e\n",
       "2024-01-01 00:01:30 f\n"]
        none false).1
      ≠ ["2024-01-01 00:00:54 b\n", "2024-01-01 00:00:56 c\n", "2024-01-01 00:01:01 d\n"] := by
  refine ⟨by rw [scanEvalC1], by rw [scanEvalC1]; decide, by rw [mainScanEvalC1]; decide⟩

/-- Claim C1 (amended): for the file with timestamps T-10, T-6, T-4, T+1, T+20
and window [T-5, T+5], the Log Window Extractor returns exactly the two lines
timestamped T-4 and T+1 (T-6 is outside the window), and stops scanning at the
T+20 line: with a sixth line appended after the T+20 line, only five of the six
lines are consumed.  The full extract_log_window entry holds the concatenation
of the two retained lines. -/
theorem c1_window_example_amended :
    extract_log_window 1704067255 1704067265 "app/x.txt" "/logs/app/x.txt"
      ["2024-01-01 00:00:50 a\n",
       "2024-01-01 00:00:54 b\n",
       "2024-01-01 00:00:56 c\n",
       "2024-01-01 00:01:01 d\n",
       "2024-01-01 00:01:20 e\n",
       "2024-01-01 00:01:30 f\n"]
    = ⟨"/logs/app/x.txt", "2024-01-01 00:00:56 c\n2024-01-01 00:01:01 d\n"⟩ ∧
    extractScan 1704067255 1704067265 0
      ["2024-01-01 00:00:50 a\n",
       "2024-01-01 00:00:54 b\n",
       "2024-01-01 00:00:56 c\n",
       "2024-01-01 00:01:01 d\n",
       "2024-01-01 00:01:20 e\n",
       "2024-01-01 00:01:30 f\n"]
      none false
    = (["2024-01-01 00:00:56 c\n", "2024-01-01 00:01:01 d\n"], 5, true) ∧
    mainScan 1704067255 1704067265 0
      ["2024-01-01 00:00:50 a\n",
       "2024-01-01 00:00:54 b\n",
       "2024-01-01 00:00:56 c\n",
       "2024-01-01 00:01:01 d\n",
       "2024-01-01 00:01:20 e\n",
       "2024-01-01 00:01:30 f\n"]
      none false
    = (["2024-01-01 00:00:56 c\n", "2024-01-01 00:01:01 d\n"], 5, true) :=
  ⟨entryEvalC1, scanEvalC1, mainScanEvalC1⟩

/-- Claim C2: in the log_window_extractor.py fetch_all_order_logs, every input
file yields an output entry (first conjunct), and a per-file failure is reported
as a placeholder embedding the error text (second conjunct, at the failing
input: a file whose read raises "boom").  The main.py duplicate of
fetch_all_order_logs, which is the one invoked by fetch_order_data, instead
drops the failed file from the mapping entirely (third conjunct). -/
theorem c2_per_file_failure :
    (∀ (oid ets : ℚ) (files : List FileIn),
        (fetch_all_order_logs oid ets files).map Prod.fst = files.map FileIn.rel) ∧
      fetch_all_order_logs 100 200 [⟨"a", "/data/a", .err "boom"⟩]
        = [("a", ⟨"/data/a", "=== Failed to extract log window: boom ==="⟩)] ∧
      fetch_all_order_logs_main 100 200 [⟨"a", "/data/a", .err "boom"⟩] = [] :=
  ⟨fun oid ets files => by simp [fetch_all_order_logs], by rfl, by rfl⟩

/-- Claim C3: a line carrying the terminal end_screen_weight marker with no
previously observed new_order marker makes OrdersStrategy.fetch_order raise a
pydantic ValidationError (order_data holds only end_time, yet is non-empty, so
the `if order_data else None` guard does not fire and Order(**order_data) is
constructed from incomplete data) instead of returning None. -/
theorem c3_end_marker_without_start_raises :
    fetch_order 123
      ["2024-01-01 12:00:00.000000 \x7b\"end_screen_weight\": 123.0\x7d\n"]
      = .error (.validationError "Order") := by rfl

theorem mainScan_replicate (n : Nat) (last : Option ℚ) :
    mainScan 1704067200 1704067200 0
        (List.replicate n "2024-01-01 00:00:00 x\n") last true
      = (List.replicate n "2024-01-01 00:00:00 x\n", n, true) := by
  induction n generalizing last with
  | zero => rfl
  | succ k ih =>
    have hp := parse_timestamp_eval "2024-01-01 00:00:00 x\n"
      ⟨2024, 1, 1, 0, 0, 0, "2024-01-01 00:00:00".data⟩ 1704067200 (by rfl) (by rfl) (by rfl)
    simp only [List.replicate_succ, mainScan, hp, Option.isSome_some, Bool.or_true,
      Bool.true_or]
    rw [if_pos (by constructor <;> norm_num)]
    rw [ih (some ((1704067200 : Int) : ℚ))]

theorem mainScan_replicate_top (n : Nat) :
    mainScan 1704067200 1704067200 0
        (List.replicate (n + 1) "2024-01-01 00:00:00 x\n") none false
      = (List.replicate (n + 1) "2024-01-01 00:00:00 x\n", n + 1, true) := by
  have hp := parse_timestamp_eval "2024-01-01 00:00:00 x\n"
    ⟨2024, 1, 1, 0, 0, 0, "2024-01-01 00:00:00".data⟩ 1704067200 (by rfl) (by rfl) (by rfl)
  simp only [List.replicate_succ, mainScan, hp, Option.isSome_some, Bool.or_true,
    Bool.false_or]
  rw [if_pos (by constructor <;> norm_num)]
  rw [mainScan_replicate n (some ((1704067200 : Int) : ℚ))]

theorem bytesOf_replicate (n : Nat) (s : String) :
    bytesOf (List.replicate n s) = n * s.length := by
  simp [bytesOf, List.map_replicate, List.sum_replicate, smul_eq_mul]

/-- Claim C4 (code bug): the byte and line ceilings govern only
iter_lines_with_limits in log_window_extractor.py (first conjunct: at most
MAX_LINES_PER_FILE lines, at most MAX_BYTES_PER_FILE bytes, and the yield is an
initial-segment truncation of the file, not an error).  The extractor actually
invoked per request is the inline copy in main.py, whose scan reads its file
with no ceiling at all: it retains every in-window line of an arbitrarily long
file (second conjunct), and at a concrete 500000-line, 11000000-byte file that
exceeds both ceilings the served entry text is the concatenation of all 500000
lines (third conjunct). -/
theorem c4_serving_path_unbounded :
    (∀ lines : List String,
        (iter_lines_with_limits lines).length ≤ MAX_LINES_PER_FILE ∧
        bytesOf (iter_lines_with_limits lines) ≤ MAX_BYTES_PER_FILE ∧
        (∃ t, iter_lines_with_limits lines ++ t = lines)) ∧
    (∀ n : Nat,
        mainScan 1704067200 1704067200 0
            (List.replicate (n + 1) "2024-01-01 00:00:00 x\n") none false
          = (List.replicate (n + 1) "2024-01-01 00:00:00 x\n", n + 1, true)) ∧
    (∃ lines : List String,
        MAX_LINES_PER_FILE < lines.length ∧
        MAX_BYTES_PER_FILE < bytesOf lines ∧
        (main_extract_entry 1704067200 1704067200 "app/x.txt" "/logs/app/x.txt" lines).text
          = String.join lines) := by
  refine ⟨?_, mainScan_replicate_top, ?_⟩
  · intro lines
    have hlen := iterGo_length lines 0 0
    have hbytes := iterGo_bytes lines 0 0
    simp only [iter_lines_with_limits]
    exact ⟨by omega, by omega, iterGo_take lines 0 0⟩
  · refine ⟨List.replicate 500000 "2024-01-01 00:00:00 x\n", ?_, ?_, ?_⟩
    · rw [List.length_replicate]
      norm_num [MAX_LINES_PER_FILE]
    · rw [bytesOf_replicate, show ("2024-01-01 00:00:00 x\n").length = 22 from rfl]
      norm_num [MAX_BYTES_PER_FILE]
    · have h := mainScan_replicate_top 499999
      norm_num at h
      simp only [main_extract_entry]
      rw [show offsetFor "app/x.txt" = (0 : ℚ) from rfl, h]
      rw [show (List.replicate 500000 "2024-01-01 00:00:00 x\n").isEmpty = false from by
        rw [show (500000 : Nat) = 499999 + 1 from by norm_num, List.replicate_succ]
        rfl]
      rfl

/-- Claim C5 (counterexample): with an empty source telemetry mapping, in which
no motor has any series, composeMotors still returns all nine motor nodes, each
with empty velocity/position/state series; in particular the motors map is not
empty, refuting the claim that a node lacking a required series is excluded. -/
theorem c5_motor_inclusion_counterexample :
    composeMotors [] = motor_names.map
        (fun m => (m, ⟨⟨.jarr [], .jarr []⟩, ⟨.jarr [], .jarr []⟩,
          ⟨.jarr [], .jarr []⟩, none⟩)) ∧
      composeMotors [] ≠ [] :=
  ⟨by rfl, by simp [composeMotors, motor_names]⟩

/-- Claim C5 (amended): every name of the fixed nine-motor list is always
included in the motors map, regardless of which series the source telemetry
carries (first conjunct); for every node of the map, any required series key
absent from the source telemetry defaults to an empty list rather than
excluding the node (six defaulting implications), and the optional weight
series is attached exactly when both weight keys are present in the source
telemetry and at least one of the two weight lists is truthy (non-empty). -/
theorem c5_motor_inclusion_amended (telemetry : List (String × JVal)) :
    (composeMotors telemetry).map Prod.fst = motor_names ∧
    ∀ m node, (m, node) ∈ composeMotors telemetry →
      (jLookup telemetry (m ++ "_velocity_time") = none → node.velocity.time = JVal.jarr []) ∧
      (jLookup telemetry (m ++ "_velocity_value") = none → node.velocity.value = JVal.jarr []) ∧
      (jLookup telemetry (m ++ "_position_time") = none → node.position.time = JVal.jarr []) ∧
      (jLookup telemetry (m ++ "_position_value") = none → node.position.value = JVal.jarr []) ∧
      (jLookup telemetry (m ++ "_state_time") = none → node.state.time = JVal.jarr []) ∧
      (jLookup telemetry (m ++ "_state_value") = none → node.state.value = JVal.jarr []) ∧
      (node.weight.isSome = true ↔
        ((jLookup telemetry (m ++ "_weight_time")).isSome = true ∧
         (jLookup telemetry (m ++ "_weight_value")).isSome = true ∧
         (jTruthy (tGet telemetry (m ++ "_weight_time")) = true ∨
          jTruthy (tGet telemetry (m ++ "_weight_value")) = true))) := by
  refine ⟨by simp [composeMotors, Function.comp_def], ?_⟩
  intro m node hmem
  simp only [composeMotors, List.mem_map] at hmem
  obtain ⟨x, hx, heq⟩ := hmem
  rw [Prod.mk.injEq] at heq
  obtain ⟨rfl, rfl⟩ := heq
  refine ⟨fun h => by simp [composeMotor, tGet, h],
    fun h => by simp [composeMotor, tGet, h],
    fun h => by simp [composeMotor, tGet, h],
    fun h => by simp [composeMotor, tGet, h],
    fun h => by simp [composeMotor, tGet, h],
    fun h => by simp [composeMotor, tGet, h], ?_⟩
  simp only [composeMotor]
  by_cases hA : (jLookup telemetry (x ++ "_weight_time")).isSome = true <;>
    by_cases hB : (jLookup telemetry (x ++ "_weight_value")).isSome = true <;>
    by_cases hC : jTruthy (tGet telemetry (x ++ "_weight_time")) = true <;>
    by_cases hD : jTruthy (tGet telemetry (x ++ "_weight_value")) = true <;>
    simp [hA, hB, hC, hD]

theorem c5_motor_inclusion_amended_witness :
    (composeMotors [("screen_weight_time", JVal.jarr [JVal.jnum 1]),
        ("screen_weight_value", JVal.jarr [])]).map Prod.fst = motor_names ∧
    (composeMotor [("screen_weight_time", JVal.jarr [JVal.jnum 1]),
        ("screen_weight_value", JVal.jarr [])] "screen").weight.isSome = true ∧
    (composeMotor [("screen_weight_time", JVal.jarr [JVal.jnum 1]),
        ("screen_weight_value", JVal.jarr [])] "truck").velocity.time = JVal.jarr [] := by
  have h := c5_motor_inclusion_amended
    [("screen_weight_time", JVal.jarr [JVal.jnum 1]), ("screen_weight_value", JVal.jarr [])]
  refine ⟨h.1, ?_, ?_⟩
  · exact ((h.2 "screen" _ (List.mem_map_of_mem _ (by simp [motor_names]))).2.2.2.2.2.2).mpr
      ⟨by rfl, by rfl, Or.inl (by rfl)⟩
  · exact ((h.2 "truck" _ (List.mem_map_of_mem _ (by simp [motor_names]))).1) (by rfl)

/-- Claim C6: for every (subdirectory, suffix) group, the file chosen by the
discovery scan parses to the requested suffix, has a valid date at most the
target date, and every other qualifying file of the same suffix has a strictly
earlier date, or the same date with the chosen file being the compressed (.gz)
variant (first conjunct); whenever some qualifying file exists the scan chooses
one (second conjunct); the spec example with files 2024-01-01_orders.txt and
2024-01-03_orders.txt.gz and target date 2024-01-02 selects the 2024-01-01 file
(third conjunct), where target 2024-01-02 arises from epoch 1704153600 (fourth
conjunct). -/
theorem c6_file_discovery_latest :
    (∀ (target : Nat × Nat × Nat) (names : List String)
        (m : List (List Char × String)) (s : List Char) (chosen : String),
      find_suitable_dir target names = .ok m →
      lookupSfx m s = some chosen →
      chosen ∈ names ∧
        ∃ p : RotParts, matchRotated chosen = some p ∧ p.sfx = s ∧
          validYmd p.y p.mo p.dd = true ∧ ymdLe (p.y, p.mo, p.dd) target = true ∧
          ∀ q ∈ names, ∀ pq : RotParts, matchRotated q = some pq → pq.sfx = s →
            ymdLe (pq.y, pq.mo, pq.dd) target = true →
            (ymdLt (pq.y, pq.mo, pq.dd) (p.y, p.mo, p.dd) = true ∨
              ((pq.y, pq.mo, pq.dd) = (p.y, p.mo, p.dd) ∧ (pq.gz = p.gz ∨ p.gz = true)))) ∧
    (∀ (target : Nat × Nat × Nat) (names : List String)
        (m : List (List Char × String)) (s : List Char) (q : String) (pq : RotParts),
      find_suitable_dir target names = .ok m →
      q ∈ names → matchRotated q = some pq → pq.sfx = s →
      ymdLe (pq.y, pq.mo, pq.dd) target = true →
      ∃ v, lookupSfx m s = some v) ∧
    find_suitable_dir (2024, 1, 2)
        ["2024-01-01_orders.txt", "2024-01-03_orders.txt.gz"]
      = .ok [("orders".data, "2024-01-01_orders.txt")] ∧
    dateOfTimestamp 1704153600 = (2024, 1, 2) := by
  refine ⟨find_suitable_dir_max, find_suitable_dir_complete, by rfl, ?_⟩
  unfold dateOfTimestamp
  rw [show (1704153600 : ℚ) / 86400 = ((19724 : Int) : ℚ) by norm_num,
    Int.floor_intCast]
  rfl

/-- Claim C6 witness: the maximality statement instantiated at the spec example. -/
theorem c6_file_discovery_latest_witness :
    "2024-01-01_orders.txt" ∈ ["2024-01-01_orders.txt", "2024-01-03_orders.txt.gz"] ∧
      ∃ p : RotParts, matchRotated "2024-01-01_orders.txt" = some p ∧
        p.sfx = "orders".data ∧
        validYmd p.y p.mo p.dd = true ∧ ymdLe (p.y, p.mo, p.dd) (2024, 1, 2) = true ∧
        ∀ q ∈ ["2024-01-01_orders.txt", "2024-01-03_orders.txt.gz"],
          ∀ pq : RotParts, matchRotated q = some pq → pq.sfx = "orders".data →
            ymdLe (pq.y, pq.mo, pq.dd) (2024, 1, 2) = true →
            (ymdLt (pq.y, pq.mo, pq.dd) (p.y, p.mo, p.dd) = true ∨
              ((pq.y, pq.mo, pq.dd) = (p.y, p.mo, p.dd) ∧ (pq.gz = p.gz ∨ p.gz = true))) :=
  c6_file_discovery_latest.1 (2024, 1, 2)
    ["2024-01-01_orders.txt", "2024-01-03_orders.txt.gz"]
    [("orders".data, "2024-01-01_orders.txt")] "orders".data
    "2024-01-01_orders.txt" (by rfl) (by rfl)

/-- Claim C7: with order interval [100, 200] and a sauce-weight record whose
derived absolute timestamp is 150 (clock 00:02:30 on file date 1970-01-01),
weight_point_time [0, 1, 2] and weight_point [10, 20, 30], fetch_points
produces exactly three points named "Sauce 1".."Sauce 3" in array order with
strictly increasing times 48, 49, 50 seconds from order start, and ignores any
later qualifying record (here a second record at 00:02:40). -/
theorem c7_sauce_weight_example :
    fetch_points ⟨123, 100, 200⟩ "1970-01-01_sauce_weight.txt"
      ["\x7b'time': '00:02:30', 'weight_point_time': [0, 1, 2], 'weight_point': [10, 20, 30]\x7d\n",
       "\x7b'time': '00:02:40', 'weight_point_time': [0, 1], 'weight_point': [5, 6]\x7d\n"]
      "Sauce"
      = .ok [⟨"Sauce 1", 48, 10⟩, ⟨"Sauce 2", 49, 20⟩, ⟨"Sauce 3", 50, 30⟩] := by
  have hjson : jsonLoads (quoteSwap
      "\x7b'time': '00:02:30', 'weight_point_time': [0, 1, 2], 'weight_point': [10, 20, 30]\x7d\n")
        = some (.jobj [("time", .jstr "00:02:30"),
            ("weight_point_time", .jarr [.jnum ((0:Nat):ℚ), .jnum ((1:Nat):ℚ), .jnum ((2:Nat):ℚ)]),
            ("weight_point", .jarr [.jnum ((10:Nat):ℚ), .jnum ((20:Nat):ℚ), .jnum ((30:Nat):ℚ)])]) := by
    rfl
  have hk1 : jLookup [("time", JVal.jstr "00:02:30"),
            ("weight_point_time", JVal.jarr [JVal.jnum ((0:Nat):ℚ), JVal.jnum ((1:Nat):ℚ), JVal.jnum ((2:Nat):ℚ)]),
            ("weight_point", JVal.jarr [JVal.jnum ((10:Nat):ℚ), JVal.jnum ((20:Nat):ℚ), JVal.jnum ((30:Nat):ℚ)])]
          "time" = some (.jstr "00:02:30") := by rfl
  have hk2 : jLookup [("time", JVal.jstr "00:02:30"),
            ("weight_point_time", JVal.jarr [JVal.jnum ((0:Nat):ℚ), JVal.jnum ((1:Nat):ℚ), JVal.jnum ((2:Nat):ℚ)]),
            ("weight_point", JVal.jarr [JVal.jnum ((10:Nat):ℚ), JVal.jnum ((20:Nat):ℚ), JVal.jnum ((30:Nat):ℚ)])]
          "weight_point_time"
        = some (.jarr [JVal.jnum ((0:Nat):ℚ), JVal.jnum ((1:Nat):ℚ), JVal.jnum ((2:Nat):ℚ)]) := by rfl
  have hk3 : jLookup [("time", JVal.jstr "00:02:30"),
            ("weight_point_time", JVal.jarr [JVal.jnum ((0:Nat):ℚ), JVal.jnum ((1:Nat):ℚ), JVal.jnum ((2:Nat):ℚ)]),
            ("weight_point", JVal.jarr [JVal.jnum ((10:Nat):ℚ), JVal.jnum ((20:Nat):ℚ), JVal.jnum ((30:Nat):ℚ)])]
          "weight_point"
        = some (.jarr [JVal.jnum ((10:Nat):ℚ), JVal.jnum ((20:Nat):ℚ), JVal.jnum ((30:Nat):ℚ)]) := by rfl
  have hdt : strptimeDT ("1970-01-01" ++ " " ++ "00:02:30") = some 150 := by rfl
  have hnum1 : asNumList (.jarr [JVal.jnum ((0:Nat):ℚ), JVal.jnum ((1:Nat):ℚ), JVal.jnum ((2:Nat):ℚ)])
      = some [((0:Nat):ℚ), ((1:Nat):ℚ), ((2:Nat):ℚ)] := by rfl
  have hnum2 : asNumList (.jarr [JVal.jnum ((10:Nat):ℚ), JVal.jnum ((20:Nat):ℚ), JVal.jnum ((30:Nat):ℚ)])
      = some [((10:Nat):ℚ), ((20:Nat):ℚ), ((30:Nat):ℚ)] := by rfl
  have hmax : maxList [((0:Nat):ℚ), ((1:Nat):ℚ), ((2:Nat):ℚ)] = some ((2:Nat):ℚ) := by rfl
  show fetchPointsGo ⟨123, 100, 200⟩ "1970-01-01" "Sauce" _ = _
  simp only [fetchPointsGo, hjson, hk1]
  simp only [hdt]
  rw [if_pos (by constructor <;> norm_num)]
  simp only [hk2, hnum1, hmax, hk3, hnum2]
  simp only [List.zip_cons_cons, List.zip_nil_right, buildPoints]
  have e1 : ((150 : Int) : ℚ) - ((2:Nat):ℚ) + ((0:Nat):ℚ) - 100 = ((48 : Int) : ℚ) := by norm_num
  have e2 : ((150 : Int) : ℚ) - ((2:Nat):ℚ) + ((1:Nat):ℚ) - 100 = ((49 : Int) : ℚ) := by norm_num
  have e3 : ((150 : Int) : ℚ) - ((2:Nat):ℚ) + ((2:Nat):ℚ) - 100 = ((50 : Int) : ℚ) := by norm_num
  rw [e1, e2, e3, pyRound3_intCast, pyRound3_intCast, pyRound3_intCast]
  norm_num [natRepr, natReprGo, digitChar]
  refine ⟨by rfl, by rfl, by rfl⟩

/-- Claim C8: every line whose leading token matches the timestamp pattern and
passes calendar validation parses (at offset 0) to the epoch of that calendar
instant, and re-formatting that epoch as a UTC calendar timestamp reproduces
the token character for character. -/
theorem c8_timestamp_roundtrip (line : String) (p : TsParts)
    (hm : tsMatch line.data = some p) (hv : strptimeOk p = true) :
    parse_timestamp line 0 = some ((epochOfParts p : ℚ)) ∧
      formatEpoch (epochOfParts p) = ⟨p.tok⟩ := by
  constructor
  · simp only [parse_timestamp, hm, hv, if_true]
    norm_num
  · rw [formatEpoch_epochOfParts p hv]
    rw [← tsMatch_tok line.data p hm]

/-- Claim C8 witness: the round trip at the concrete line
"2024-01-02 03:04:05 hello". -/
theorem c8_timestamp_roundtrip_witness :
    tsMatch "2024-01-02 03:04:05 hello".data
        = some ⟨2024, 1, 2, 3, 4, 5, "2024-01-02 03:04:05".data⟩ ∧
      strptimeOk ⟨2024, 1, 2, 3, 4, 5, "2024-01-02 03:04:05".data⟩ = true ∧
      (parse_timestamp "2024-01-02 03:04:05 hello" 0
          = some ((epochOfParts ⟨2024, 1, 2, 3, 4, 5, "2024-01-02 03:04:05".data⟩ : ℚ)) ∧
        formatEpoch (epochOfParts ⟨2024, 1, 2, 3, 4, 5, "2024-01-02 03:04:05".data⟩)
          = ⟨("2024-01-02 03:04:05".data)⟩) :=
  ⟨by decide, by decide, c8_timestamp_roundtrip _ _ (by decide) (by decide)⟩

/-- Claim C9: for every order, file and scan position, when the first record
whose derived timestamp lies inside the order interval carries an empty
weight_point_time array, fetch_points raises the ValueError of max() over an
empty sequence instead of returning a point list. -/
theorem c9_empty_weight_point_time_raises (order : Order) (pathName : String)
    (line : String) (rest : List String) (namePre : String)
    (kvs : List (String × JVal)) (tstr : String) (rt : Int) (wptv : JVal)
    (h1 : jsonLoads (quoteSwap line) = some (.jobj kvs))
    (h2 : jLookup kvs "time" = some (.jstr tstr))
    (h3 : strptimeDT ((⟨pathName.data.takeWhile (fun c => !(c == '_'))⟩ : String) ++ " " ++ tstr)
        = some rt)
    (h4 : order.start_time ≤ (rt : ℚ) ∧ (rt : ℚ) ≤ order.end_time)
    (h5 : jLookup kvs "weight_point_time" = some wptv)
    (h6 : asNumList wptv = some []) :
    fetch_points order pathName (line :: rest) namePre
      = .error (.valueError "max() arg is an empty sequence") := by
  unfold fetch_points
  simp only [fetchPointsGo, h1, h2, h3, h5, h6, if_pos h4,
    show maxList ([] : List ℚ) = none from rfl]

/-- Claim C9 witness: a concrete first in-interval record with an empty
weight_point_time array makes fetch_points return the max()-over-empty
ValueError. -/
theorem c9_empty_weight_point_time_raises_witness :
    fetch_points ⟨123, 100, 200⟩ "1970-01-01_sauce_weight.txt"
      ["\x7b'time': '00:02:30', 'weight_point_time': [], 'weight_point': []\x7d\n"]
      "Sauce"
      = .error (.valueError "max() arg is an empty sequence") :=
  c9_empty_weight_point_time_raises ⟨123, 100, 200⟩ "1970-01-01_sauce_weight.txt"
    "\x7b'time': '00:02:30', 'weight_point_time': [], 'weight_point': []\x7d\n" [] "Sauce"
    [("time", .jstr "00:02:30"), ("weight_point_time", .jarr []), ("weight_point", .jarr [])]
    "00:02:30" 150 (.jarr [])
    (by rfl) (by rfl) (by rfl) (by constructor <;> norm_num) (by rfl) (by rfl)

/-- Claim C10: whenever the scan reaches a qualifying record (parsed object,
in-interval derived time, non-empty weight_point_time), fetch_points returns
point list whose length is the minimum of the lengths of weight_point_time and
weight_point: zip silently drops the excess entries of the longer array. -/
theorem c10_point_count_min (order : Order) (pathName : String) (line : String)
    (rest : List String) (namePre : String) (kvs : List (String × JVal))
    (tstr : String) (rt : Int) (wptv wpv : JVal) (wpt wp : List ℚ)
    (h1 : jsonLoads (quoteSwap line) = some (.jobj kvs))
    (h2 : jLookup kvs "time" = some (.jstr tstr))
    (h3 : strptimeDT ((⟨pathName.data.takeWhile (fun c => !(c == '_'))⟩ : String) ++ " " ++ tstr)
        = some rt)
    (h4 : order.start_time ≤ (rt : ℚ) ∧ (rt : ℚ) ≤ order.end_time)
    (h5 : jLookup kvs "weight_point_time" = some wptv)
    (h6 : asNumList wptv = some wpt)
    (h7 : wpt ≠ [])
    (h8 : jLookup kvs "weight_point" = some wpv)
    (h9 : asNumList wpv = some wp) :
    ∃ pts, fetch_points order pathName (line :: rest) namePre = .ok pts ∧
      pts.length = min wpt.length wp.length := by
  obtain ⟨maxd, hmax⟩ := maxList_ne_nil wpt h7
  refine ⟨buildPoints namePre order.start_time ((rt : ℚ) - maxd) (wpt.zip wp) 1, ?_, ?_⟩
  · unfold fetch_points
    simp only [fetchPointsGo, h1, h2, h3, h5, h6, hmax, h8, h9, if_pos h4]
  · rw [buildPoints_length, List.length_zip]

/-- Claim C10 witness: three time offsets zipped with two values yield exactly
two points. -/
theorem c10_point_count_min_witness :
    ∃ pts, fetch_points ⟨123, 100, 200⟩ "1970-01-01_sauce_weight.txt"
        ["\x7b'time': '00:02:30', 'weight_point_time': [0, 1, 2], 'weight_point': [10, 20]\x7d\n"]
        "Sauce" = .ok pts ∧ pts.length = 2 := by
  obtain ⟨pts, hp, hl⟩ := c10_point_count_min ⟨123, 100, 200⟩ "1970-01-01_sauce_weight.txt"
    "\x7b'time': '00:02:30', 'weight_point_time': [0, 1, 2], 'weight_point': [10, 20]\x7d\n"
    [] "Sauce"
    [("time", .jstr "00:02:30"),
     ("weight_point_time", .jarr [.jnum ((0:Nat):ℚ), .jnum ((1:Nat):ℚ), .jnum ((2:Nat):ℚ)]),
     ("weight_point", .jarr [.jnum ((10:Nat):ℚ), .jnum ((20:Nat):ℚ)])]
    "00:02:30" 150
    (.jarr [.jnum ((0:Nat):ℚ), .jnum ((1:Nat):ℚ), .jnum ((2:Nat):ℚ)])
    (.jarr [.jnum ((10:Nat):ℚ), .jnum ((20:Nat):ℚ)])
    [((0:Nat):ℚ), ((1:Nat):ℚ), ((2:Nat):ℚ)] [((10:Nat):ℚ), ((20:Nat):ℚ)]
    (by rfl) (by rfl) (by rfl) (by constructor <;> norm_num)
    (by rfl) (by rfl) (by simp) (by rfl) (by rfl)
  exact ⟨pts, hp, by simpa using hl⟩
